import Mathlib

/-!
# Verification of the pylti1p3next service-client and registration layer

Shallow embedding, in Lean 4, of the parts of `pylti1p3` that the checked
specification talks about:

* `pylti1p3/service_connector.py` (token-cache key derivation, access-token
  caching, `get_access_token`, `make_service_request`, `get_paginated_data`) —
  the repository carries two snapshots of this module; both Link-header
  `next` extraction variants are embedded,
* `pylti1p3/contrib/{flask,django}/service_connector.py` cache bindings,
* `src/pylti1p3/assignments_grades.py` (scope gates, URL path composition,
  lineitem/grade operations),
* `src/pylti1p3/grade.py` (`remove_nones`, `Grade.get_value`),
* `src/pylti1p3/dynamic_registration.py` (`DynamicRegistration.register`).

Python `str` values are modelled as Lean `String`/`List Char` over the ASCII
subset actually exchanged by the protocol (URLs, headers, scope URIs); JSON
documents are modelled by the inductive type `Json` below, with `md5`
implemented bit-for-bit so that cache keys are the real hexadecimal digests.
-/

/-- JSON values as produced by Python's `json` module: `None`/`null`,
booleans, numbers (numeric payloads are opaque to every property proved
here, so they are carried as `Int`), strings, arrays and objects
(insertion-ordered key/value lists, as in a Python `dict`). -/
inductive Json : Type where
  | null : Json
  | bool (b : Bool) : Json
  | num (n : Int) : Json
  | str (s : String) : Json
  | arr (elems : List Json) : Json
  | obj (fields : List (String × Json)) : Json

/-- `v is None` / `v is not None` tests (`isinstance`-free null check). -/
def Json.isNull : Json → Bool
  | Json.null => true
  | _ => false

/-- Python truthiness of a JSON value (`if x:`): `None`, `False`, `0`, `""`,
`[]` and `{}` are falsy, everything else truthy. -/
def jsonTruthy : Json → Bool
  | Json.null => false
  | Json.bool b => b
  | Json.num n => n != 0
  | Json.str s => s != ""
  | Json.arr elems => !elems.isEmpty
  | Json.obj fields => !fields.isEmpty

/-- First value bound to key `k` in an association list (`dict.get`). -/
def alistGet (l : List (String × Json)) (k : String) : Option Json :=
  (l.find? (fun kv => kv.1 == k)).map (fun kv => kv.2)

/-- `k in d` for a Python dict modelled as an association list. -/
def alistHasKey (l : List (String × Json)) (k : String) : Bool :=
  l.any (fun kv => kv.1 == k)

/-- Python dict assignment `d[k] = v`: replace the value in place when the
key is present (association lists modelling dicts are duplicate-free, as
dicts are), otherwise append the binding at the end. -/
def alistSet : List (String × Json) → String → Json → List (String × Json)
  | [], k, v => [(k, v)]
  | kv :: rest, k, v =>
      if kv.1 == k then (k, v) :: rest else kv :: alistSet rest k v

/-- Python `dict.update`: fold `alistSet` over the update list. -/
def alistUpdate (l upd : List (String × Json)) : List (String × Json) :=
  upd.foldl (fun acc kv => alistSet acc kv.1 kv.2) l

section Md5

/-! ## MD5 (RFC 1321)

`ServiceConnector._scope_key` hashes `issuer + sorted scopes` with
`hashlib.md5(...).hexdigest()`; the digest is reproduced here exactly.
32-bit machine words are `Nat`s reduced modulo `2 ^ 32`. -/

/-- Truncate to a 32-bit word. -/
def w32 (x : Nat) : Nat := x % 4294967296

/-- Bitwise complement of a 32-bit word. -/
def not32 (x : Nat) : Nat := Nat.xor x 4294967295

/-- Left-rotate a 32-bit word by `n` bits (`0 < n < 32`). -/
def rotl32 (x n : Nat) : Nat :=
  w32 (Nat.lor (w32 (Nat.shiftLeft x n)) (Nat.shiftRight x (32 - n)))

/-- The 64 sine-derived round constants of MD5. -/
def md5K : List Nat :=
  [0xd76aa478, 0xe8c7b756, 0x242070db, 0xc1bdceee,
   0xf57c0faf, 0x4787c62a, 0xa8304613, 0xfd469501,
   0x698098d8, 0x8b44f7af, 0xffff5bb1, 0x895cd7be,
   0x6b901122, 0xfd987193, 0xa679438e, 0x49b40821,
   0xf61e2562, 0xc040b340, 0x265e5a51, 0xe9b6c7aa,
   0xd62f105d, 0x02441453, 0xd8a1e681, 0xe7d3fbc8,
   0x21e1cde6, 0xc33707d6, 0xf4d50d87, 0x455a14ed,
   0xa9e3e905, 0xfcefa3f8, 0x676f02d9, 0x8d2a4c8a,
   0xfffa3942, 0x8771f681, 0x6d9d6122, 0xfde5380c,
   0xa4beea44, 0x4bdecfa9, 0xf6bb4b60, 0xbebfbc70,
   0x289b7ec6, 0xeaa127fa, 0xd4ef3085, 0x04881d05,
   0xd9d4d039, 0xe6db99e5, 0x1fa27cf8, 0xc4ac5665,
   0xf4292244, 0x432aff97, 0xab9423a7, 0xfc93a039,
   0x655b59c3, 0x8f0ccc92, 0xffeff47d, 0x85845dd1,
   0x6fa87e4f, 0xfe2ce6e0, 0xa3014314, 0x4e0811a1,
   0xf7537e82, 0xbd3af235, 0x2ad7d2bb, 0xeb86d391]

/-- The per-round left-rotation amounts of MD5. -/
def md5S : List Nat :=
  [7, 12, 17, 22, 7, 12, 17, 22, 7, 12, 17, 22, 7, 12, 17, 22,
   5, 9, 14, 20, 5, 9, 14, 20, 5, 9, 14, 20, 5, 9, 14, 20,
   4, 11, 16, 23, 4, 11, 16, 23, 4, 11, 16, 23, 4, 11, 16, 23,
   6, 10, 15, 21, 6, 10, 15, 21, 6, 10, 15, 21, 6, 10, 15, 21]

/-- Round function: `F`, `G`, `H`, `I` depending on the round index. -/
def md5F (i b c d : Nat) : Nat :=
  if i < 16 then Nat.lor (Nat.land b c) (Nat.land (not32 b) d)
  else if i < 32 then Nat.lor (Nat.land d b) (Nat.land (not32 d) c)
  else if i < 48 then Nat.xor (Nat.xor b c) d
  else Nat.xor c (Nat.lor b (not32 d))

/-- Message-word index accessed in round `i`. -/
def md5G (i : Nat) : Nat :=
  if i < 16 then i
  else if i < 32 then (5 * i + 1) % 16
  else if i < 48 then (3 * i + 5) % 16
  else (7 * i) % 16

/-- Split a byte list into little-endian 32-bit words (16 per block). -/
def bytesToWords32 : List Nat → List Nat
  | b0 :: b1 :: b2 :: b3 :: rest =>
      (b0 + 256 * b1 + 65536 * b2 + 16777216 * b3) :: bytesToWords32 rest
  | _ => []

/-- One MD5 round step on the running state `(a, b, c, d)`. -/
def md5Step (m : List Nat) (st : Nat × Nat × Nat × Nat) (i : Nat) :
    Nat × Nat × Nat × Nat :=
  let (a, b, c, d) := st
  let f := md5F i b c d
  let g := md5G i
  let sum := w32 (a + f + (md5K.getD i 0) + (m.getD g 0))
  (d, w32 (b + rotl32 sum (md5S.getD i 0)), b, c)

/-- Process one 16-word block, starting from state `st`. -/
def md5Block (st : Nat × Nat × Nat × Nat) (m : List Nat) :
    Nat × Nat × Nat × Nat :=
  let (a0, b0, c0, d0) := st
  let (a, b, c, d) := (List.range 64).foldl (md5Step m) (a0, b0, c0, d0)
  (w32 (a0 + a), w32 (b0 + b), w32 (c0 + c), w32 (d0 + d))

/-- Cut a byte list into 64-byte chunks (`fuel` bounds the recursion so the
definition is structural and kernel-reducible; callers pass the length). -/
def chunk64 : Nat → List Nat → List (List Nat)
  | 0, _ => []
  | _, [] => []
  | fuel + 1, b :: rest => ((b :: rest).take 64) :: chunk64 fuel ((b :: rest).drop 64)

/-- Fold the compression function over consecutive 64-byte blocks. -/
def md5Blocks (st : Nat × Nat × Nat × Nat) (bytes : List Nat) :
    Nat × Nat × Nat × Nat :=
  (chunk64 bytes.length bytes).foldl (fun s blk => md5Block s (bytesToWords32 blk)) st

/-- MD5 padding: `0x80`, zeros to 56 mod 64, then the bit length as a
little-endian 64-bit integer. -/
def md5Pad (msg : List Nat) : List Nat :=
  let len := msg.length
  let zeros := (119 - len % 64) % 64
  let bitLen := (len * 8) % 18446744073709551616
  msg ++ [0x80] ++ List.replicate zeros 0 ++
    (List.range 8).map (fun i => (Nat.shiftRight bitLen (8 * i)) % 256)

/-- Little-endian bytes of a 32-bit word. -/
def word32Bytes (x : Nat) : List Nat :=
  [x % 256, (x / 256) % 256, (x / 65536) % 256, (x / 16777216) % 256]

/-- One lowercase hexadecimal digit. -/
def hexDigit (n : Nat) : Char :=
  if n < 10 then Char.ofNat (48 + n) else Char.ofNat (87 + n)

/-- Two lowercase hex digits of a byte. -/
def byteHex (b : Nat) : List Char := [hexDigit (b / 16), hexDigit (b % 16)]

/-- `hashlib.md5(bytes).hexdigest()`: lowercase hex digest of a byte list. -/
def md5Hex (msg : List Nat) : String :=
  let (a, b, c, d) :=
    md5Blocks (0x67452301, 0xefcdab89, 0x98badcfe, 0x10325476) (md5Pad msg)
  String.mk (((word32Bytes a ++ word32Bytes b ++ word32Bytes c ++ word32Bytes d).map byteHex).flatten)

/-- UTF-8 encoding of a character (`str.encode("utf-8")`, per code point). -/
def utf8Char (c : Char) : List Nat :=
  let n := c.toNat
  if n < 128 then [n]
  else if n < 2048 then [192 + n / 64, 128 + n % 64]
  else if n < 65536 then [224 + n / 4096, 128 + (n / 64) % 64, 128 + n % 64]
  else [240 + n / 262144, 128 + (n / 4096) % 64, 128 + (n / 64) % 64, 128 + n % 64]

/-- UTF-8 encoding of a string as a byte list. -/
def utf8Bytes (s : String) : List Nat := (s.toList.map utf8Char).flatten

end Md5

set_option maxRecDepth 10000

section PyStr

/-! ## Python string helpers

`str.lower`, `str.strip`, `str.replace("\n", " ")` and `str.split`,
modelled on `List Char` over the ASCII alphabet the HTTP headers and URLs
of this protocol use. -/

/-- The 26 uppercase/lowercase ASCII letter pairs. -/
def lowerTable : List (Char × Char) :=
  [('A', 'a'), ('B', 'b'), ('C', 'c'), ('D', 'd'), ('E', 'e'), ('F', 'f'),
   ('G', 'g'), ('H', 'h'), ('I', 'i'), ('J', 'j'), ('K', 'k'), ('L', 'l'),
   ('M', 'm'), ('N', 'n'), ('O', 'o'), ('P', 'p'), ('Q', 'q'), ('R', 'r'),
   ('S', 's'), ('T', 't'), ('U', 'u'), ('V', 'v'), ('W', 'w'), ('X', 'x'),
   ('Y', 'y'), ('Z', 'z')]

/-- `str.lower()` on an ASCII character: map each uppercase letter to its
lowercase counterpart, leave everything else unchanged. -/
def pyLower (c : Char) : Char :=
  ((lowerTable.find? (fun kv => kv.1 == c)).map (fun kv => kv.2)).getD c

/-- `str.lower()` on a string. -/
def pyLowerStr (l : List Char) : List Char := l.map pyLower

/-- Python whitespace (`str.strip` default set / regex `\s`, ASCII part). -/
def isPySpace (c : Char) : Bool :=
  c == ' ' || c == '\t' || c == '\n' || c == '\x0d' || c == '\x0b' || c == '\x0c'

/-- `str.strip()`: drop leading and trailing whitespace. -/
def pyStrip (l : List Char) : List Char :=
  ((l.dropWhile isPySpace).reverse.dropWhile isPySpace).reverse

/-- `str.replace("\n", " ")`. -/
def replNl (l : List Char) : List Char :=
  l.map (fun c => if c = '\n' then ' ' else c)

/-- `url.split(sep)` for a one-character separator, Python semantics:
`"" ↦ [""]`, separators at the ends produce empty fields. -/
def splitChar (sep : Char) : List Char → List (List Char)
  | [] => [[]]
  | c :: rest =>
      if c = sep then [] :: splitChar sep rest
      else
        match splitChar sep rest with
        | h :: t => (c :: h) :: t
        | [] => [[c]]

/-- `url.endswith("/")` on a character list. -/
def endsWithSlash (l : List Char) : Bool := l.getLast? == some '/'

end PyStr

section LinkHeader

/-! ## `Link` header `rel="next"` extraction

Both snapshots of `ServiceConnector.make_service_request` run
`re.search(r'<([^>]*)>;\s*rel="next"', text)` over the `Link` header:

* the newer snapshot searches `link_header.replace("\n", " ").strip()`
  with `re.IGNORECASE`,
* the older snapshot searches
  `link_header.replace("\n", " ").lower().strip()` case-sensitively.

`re.search` yields the leftmost match; the pattern is deterministic (the
greedy `[^>]*` must stop at the first `'>'`, and backtracking over `\s*`
cannot succeed), so it is embedded as a left-to-right scan. -/

/-- The literal tail of the pattern after `>;` and the whitespace. -/
def litRelNext : List Char := ['r', 'e', 'l', '=', '"', 'n', 'e', 'x', 't', '"']

/-- Match the pattern literals against the text through a character
comparator `eqc` (used both case-sensitively and case-insensitively). -/
def matchesLit (eqc : Char → Char → Bool) : List Char → List Char → Bool
  | [], _ => true
  | _ :: _, [] => false
  | p :: ps, c :: cs => eqc c p && matchesLit eqc ps cs

/-- Split at the first `'>'`: `some (before, after)`, or `none` if there is
no `'>'` (then `([^>]*)>` cannot match). -/
def splitAtGt : List Char → Option (List Char × List Char)
  | [] => none
  | c :: rest =>
      if c = '>' then some ([], rest)
      else (splitAtGt rest).map (fun p => (c :: p.1, p.2))

/-- Attempt the pattern at one position: the text after a `'<'` must read
`(group)>;\s*rel="next"`; returns the captured group. -/
def tryMatchAt (eqc : Char → Char → Bool) (l : List Char) :
    Option (List Char) :=
  match splitAtGt l with
  | none => none
  | some (grp, rest) =>
      match rest with
      | r0 :: rest2 =>
          if r0 = ';' then
            if matchesLit eqc litRelNext (rest2.dropWhile isPySpace) then some grp
            else none
          else none
      | [] => none

/-- `re.search`: try the pattern at each position from the left, returning
the first captured group. -/
def reSearchRelNext (eqc : Char → Char → Bool) : List Char → Option (List Char)
  | [] => none
  | c :: rest =>
      if c = '<' then
        match tryMatchAt eqc rest with
        | some grp => some grp
        | none => reSearchRelNext eqc rest
      else reSearchRelNext eqc rest

/-- Case-insensitive comparator: `re.IGNORECASE` against the lowercase
pattern literals. -/
def eqcCI (c p : Char) : Bool := pyLower c == p

/-- Newer snapshot: `re.search(pattern, header.replace("\n"," ").strip(),
re.IGNORECASE)`, guarded by `if link_header:`. -/
def linkExtractNextCI (link : List Char) : Option (List Char) :=
  if link.isEmpty then none
  else reSearchRelNext eqcCI (pyStrip (replNl link))

/-- Older snapshot: `re.search(pattern,
header.replace("\n", " ").lower().strip())`, guarded by `if link_header:`. -/
def linkExtractNextLower (link : List Char) : Option (List Char) :=
  if link.isEmpty then none
  else reSearchRelNext (fun c p => c == p) (pyStrip (pyLowerStr (replNl link)))

end LinkHeader

section UrlPath

/-! ## `AssignmentsGradesService._add_url_path_ending` -/

/-- `AssignmentsGradesService._add_url_path_ending` on character lists:
`url.split("?")`, re-join `parts[0]` (slash-terminated) with the ending and
`parts[1]` — any third and later fields of the split are discarded. -/
def addUrlPathEndingL (url ending : List Char) : List Char :=
  if '?' ∈ url then
    let parts := splitChar '?' url
    let newUrl := parts.headD []
    let newUrl := newUrl ++ (if endsWithSlash newUrl then [] else ['/'])
    newUrl ++ ending ++ '?' :: parts.getD 1 []
  else
    (url ++ (if endsWithSlash url then [] else ['/'])) ++ ending

/-- `_add_url_path_ending` on `String`s (the form the service code uses). -/
def addUrlPathEnding (url ending : String) : String :=
  String.mk (addUrlPathEndingL url.toList ending.toList)

end UrlPath

section ScopeKey

/-! ## `ServiceConnector._scope_key` -/

/-- Lexicographic (code-point) order on character lists, the order Python
compares `str` values with. -/
def charListLe : List Char → List Char → Bool
  | [], _ => true
  | _ :: _, [] => false
  | a :: as, b :: bs => if a = b then charListLe as bs else decide (a < b)

/-- `a <= b` on Python strings. -/
def strLe (a b : String) : Bool := charListLe a.toList b.toList

/-- Python `sorted` on strings: the sorted-by-code-point permutation (any
sorting algorithm yields the same list, the order being antisymmetric). -/
def pySorted (scopes : List String) : List String :=
  List.insertionSort (fun a b => strLe a b = true) scopes

/-- `ServiceConnector._scope_key` (newer snapshot): the MD5 hex digest of
`"|".join([issuer] + sorted(scopes))` encoded as UTF-8. -/
def scope_key (issuer : String) (scopes : List String) : String :=
  md5Hex (utf8Bytes (String.intercalate "|" (issuer :: pySorted scopes)))

end ScopeKey

section Connector

/-! ## `ServiceConnector`

The HTTP layer is abstracted as values of `HttpResp`: the status code, the
raw body text (only its emptiness matters: `r.content` truthiness), the
outcome of `r.json()` (`none` when decoding raises), and the response
headers. `requests.Response.ok` is `status_code < 400`. -/

/-- A received HTTP response, as `ServiceConnector` observes it. -/
structure HttpResp where
  status : Nat
  /-- The raw body; `r.content` is falsy exactly when this is `""`. -/
  content : String
  /-- Outcome of `r.json()`: `none` when it raises `JSONDecodeError`
  (always the case for an empty body). -/
  json : Option Json
  headers : List (String × String)

/-- `requests.Response.ok`: true for every status below 400 (it is *not*
a 2xx test). -/
def respOk (r : HttpResp) : Bool := r.status < 400

/-- A 2xx success status, as the specification's wording has it. -/
def is2xx (status : Nat) : Bool := 200 ≤ status && status < 300

/-- Exceptions escaping the service-connector layer: `LtiServiceException`
carries the raw response (`pylti1p3/exception.py` lines 12-16); the other
constructors are the built-in Python exceptions the code lets propagate. -/
inductive SvcErr : Type where
  | ltiServiceException (response : HttpResp) : SvcErr
  | jsonDecodeError : SvcErr
  | keyError (key : String) : SvcErr
  | typeError : SvcErr

/-- The `TServiceConnectorResponse` dict returned by
`make_service_request`. -/
structure SvcResp where
  headers : List (String × String)
  body : Option Json
  next_page_url : Option String

/-- `requests` headers are case-insensitive: `r.headers.get(name, "")`
matches the stored key up to ASCII case. -/
def getHeaderCI (hs : List (String × String)) (name : String) : String :=
  match hs.find? (fun kv => pyLowerStr kv.1.toList == name.toList) with
  | some kv => kv.2
  | none => ""

/-- `ServiceConnector.make_service_request` (newer snapshot), from the point
the response `r` has arrived: raise `LtiServiceException(r)` unless `r.ok`;
extract `next_page_url` from the `Link` header with the case-insensitive
regex; build the response dict, where evaluating `r.json()` on a non-empty
undecodable body raises an (uncaught) `JSONDecodeError`, and an empty-string
match group is normalised to `None`. -/
def make_service_request (r : HttpResp) : Except SvcErr SvcResp :=
  if !respOk r then Except.error (SvcErr.ltiServiceException r)
  else
    let next0 := linkExtractNextCI (getHeaderCI r.headers "link").toList
    let next := next0.bind (fun g => if g.isEmpty then none else some (String.mk g))
    if r.content != "" && r.json.isNone then Except.error SvcErr.jsonDecodeError
    else
      Except.ok
        { headers := r.headers
          body := if r.content != "" then r.json else none
          next_page_url := next }

/-! ### The access-token cache -/

/-- The in-process token cache `self._access_tokens`: scope key to
`(access_token, absolute expiry)`.  Time is an integer count of seconds;
`datetime.now()` is a parameter `now` of each operation.  Token values are
JSON values (`response["access_token"]` is stored unchecked). -/
abbrev TokenCache : Type := List (String × (Json × Int))

/-- Python dict assignment `self._access_tokens[key] = entry`: replace in
place or append (the cache, like any dict, is duplicate-free). -/
def cacheSet : TokenCache → String → (Json × Int) → TokenCache
  | [], k, entry => [(k, entry)]
  | kv :: rest, k, entry =>
      if kv.1 == k then (k, entry) :: rest else kv :: cacheSet rest k entry

/-- Python dict lookup `self._access_tokens.get(key)`. -/
def cacheGet (cache : TokenCache) (k : String) : Option (Json × Int) :=
  (cache.find? (fun kv => kv.1 == k)).map (fun kv => kv.2)

/-- `ServiceConnector._get_cached_access_token` (base, in-process map):
return the stored token only while `expires > datetime.now()`. -/
def get_cached_access_token (cache : TokenCache) (k : String) (now : Int) :
    Option Json :=
  match cacheGet cache k with
  | some (token, expires) => if now < expires then some token else none
  | none => none

/-- `ServiceConnector._cache_access_token` (base, in-process map): store
`(token, now + expires_in)` — no safety margin is applied. -/
def cache_access_token (cache : TokenCache) (k : String) (token : Json)
    (expires_in now : Int) : TokenCache :=
  cacheSet cache k (token, now + expires_in)

/-- `FlaskServiceConnector._get_cached_access_token`: same logic as the
base connector, over the class-level `access_tokens` map. -/
def flask_get_cached_access_token (cache : TokenCache) (k : String)
    (now : Int) : Option Json :=
  match cacheGet cache k with
  | some (token, expires) => if now < expires then some token else none
  | none => none

/-- `FlaskServiceConnector._cache_access_token`: store
`(token, now + expires_in)` — again without a safety margin. -/
def flask_cache_access_token (cache : TokenCache) (k : String) (token : Json)
    (expires_in now : Int) : TokenCache :=
  cacheSet cache k (token, now + expires_in)

/-- `DjangoServiceConnector._get_cache_key`. -/
def django_get_cache_key (k : String) : String := "lti1p3-access-token-" ++ k

/-- The timeout `DjangoServiceConnector._cache_access_token` hands to the
external Django cache: `max(1, expires_in - 10)`. -/
def django_cache_timeout (expires_in : Int) : Int := max 1 (expires_in - 10)

/-- The `cache.set` call issued by
`DjangoServiceConnector._cache_access_token`: key, value, timeout. -/
def django_cache_access_token (k : String) (token : Json)
    (expires_in : Int) : String × Json × Int :=
  (django_get_cache_key k, token, django_cache_timeout expires_in)

/-- `ServiceConnector.get_access_token`, lines 74-119 (the exchange once the
cache missed): POST the client-credentials grant (the JWT assertion carries
no information the connector later observes, so it is not modelled), raise
`LtiServiceException(r)` on `not r.ok` or on an undecodable JSON body, read
`response["access_token"]` (a `KeyError`/`TypeError` propagates when absent
or when the body is not an object), and cache it under
`expires_in = response.get("expires_in", 0)`.  Returns the token, the
updated cache, and the fact that a POST happened. -/
def token_exchange (cache : TokenCache) (key : String) (now : Int)
    (tokenResp : HttpResp) : Except SvcErr (Json × TokenCache × Bool) :=
  if !respOk tokenResp then
    Except.error (SvcErr.ltiServiceException tokenResp)
  else
    match tokenResp.json with
    | none => Except.error (SvcErr.ltiServiceException tokenResp)
    | some j =>
        match j with
        | Json.obj fields =>
            match alistGet fields "access_token" with
            | none => Except.error (SvcErr.keyError "access_token")
            | some token =>
                match alistGet fields "expires_in" with
                | none =>
                    Except.ok (token, cache_access_token cache key token 0 now, true)
                | some (Json.num n) =>
                    Except.ok (token, cache_access_token cache key token n now, true)
                | some _ => Except.error SvcErr.typeError
        | _ => Except.error SvcErr.typeError

/-- `ServiceConnector.get_access_token` (newer snapshot): sort the scopes,
derive the cache key, serve a cached token while it is unexpired *and
truthy* (`if cached_token:`), otherwise run the exchange.  The third result
component records whether a POST to the token endpoint happened. -/
def get_access_token (issuer : String) (cache : TokenCache) (now : Int)
    (tokenResp : HttpResp) (scopes : List String) :
    Except SvcErr (Json × TokenCache × Bool) :=
  let sorted := pySorted scopes
  let key := scope_key issuer sorted
  match get_cached_access_token cache key now with
  | some cached =>
      if jsonTruthy cached then Except.ok (cached, cache, false)
      else token_exchange cache key now tokenResp
  | none => token_exchange cache key now tokenResp

/-- `ServiceConnector.get_paginated_data`: keep fetching pages while the
loop variable `url` is truthy (`None` is encoded as `""`, which is exactly
the other falsy value `while url:` stops on), yielding each page response;
an exception from a page request aborts the sequence there.  `fetch` stands
for `make_service_request(scopes, url, ...)` with everything but the URL
fixed; `fuel` bounds the recursion and is irrelevant whenever it exceeds
the chain length. -/
def get_paginated_data (fetch : String → Except SvcErr SvcResp) :
    Nat → String → List SvcResp × Option SvcErr
  | 0, _ => ([], none)
  | fuel + 1, url =>
      if url = "" then ([], none)
      else
        match fetch url with
        | Except.error e => ([], some e)
        | Except.ok resp =>
            let rest := get_paginated_data fetch fuel (resp.next_page_url.getD "")
            (resp :: rest.1, rest.2)

/-- `get_paginated_data` driven by `make_service_request` over a network
oracle `net` mapping each URL to the raw response the platform returns. -/
def get_paginated_http (net : String → HttpResp) (fuel : Nat) (url : String) :
    List SvcResp × Option SvcErr :=
  get_paginated_data (fun u => make_service_request (net u)) fuel url

/-- A finite chain of pages: each listed URL is non-empty, fetching it via
`make_service_request` yields the paired page, every page's
`next_page_url` designates the next listed URL, and the last page has
none. -/
def ChainOk (net : String → HttpResp) : List (String × SvcResp) → Prop
  | [] => True
  | (u, p) :: rest =>
      u ≠ "" ∧ make_service_request (net u) = Except.ok p ∧
      (match rest with
       | [] => p.next_page_url = none
       | (u2, _) :: _ => p.next_page_url = some u2) ∧
      ChainOk net rest

/-- The first URL of a chain, or the trailing (failing) URL when the chain
prefix is empty. -/
def chainHead (l : List (String × SvcResp)) (ubad : String) : String :=
  match l with
  | [] => ubad
  | (u, _) :: _ => u

/-- A successful chain prefix whose last page points at `ubad` (and `ubad`
is non-empty), so the fetch of `ubad` is the next one attempted. -/
def ChainPre (net : String → HttpResp) (ubad : String) :
    List (String × SvcResp) → Prop
  | [] => ubad ≠ ""
  | (u, p) :: rest =>
      u ≠ "" ∧ make_service_request (net u) = Except.ok p ∧
      p.next_page_url = some (chainHead rest ubad) ∧ ChainPre net ubad rest

end Connector

section GradeModel

/-! ## `pylti1p3/grade.py` -/

mutual

/-- The value transformer of `remove_nones` (grade.py lines 10-15):
`remove_nones(v) if isinstance(v, dict) else v` — recursion into dict
values and *only* into dict values: list values pass through untouched,
`None`s inside them included. -/
def removeNonesVal : Json → Json
  | Json.obj kvs => Json.obj (removeNonesFields kvs)
  | v => v

/-- `remove_nones` proper: drop the `None`-valued keys of a dict and
transform the surviving values. -/
def removeNonesFields : List (String × Json) → List (String × Json)
  | [] => []
  | (k, v) :: rest =>
      (if v.isNull then [] else [(k, removeNonesVal v)]) ++ removeNonesFields rest

end

mutual

/-- No JSON `null` anywhere in a value, lists and objects included. -/
def noNull : Json → Bool
  | Json.null => false
  | Json.arr elems => noNullArr elems
  | Json.obj kvs => noNullFields kvs
  | _ => true

/-- `noNull` over the elements of an array. -/
def noNullArr : List Json → Bool
  | [] => true
  | v :: rest => noNull v && noNullArr rest

/-- `noNull` over the values of an object. -/
def noNullFields : List (String × Json) → Bool
  | [] => true
  | (_, v) :: rest => noNull v && noNullFields rest

end

/-- `Grade`: all members default to `None`.  Score values are numeric
(Python floats; their numeric payload is opaque to every property proved
here, so they are carried as `Int`), timestamps are the already-formatted
strings (`format_time` output — the `datetime` branch of `format_time` is
not observable once stored). -/
structure Grade where
  score_given : Option Int := none
  score_maximum : Option Int := none
  activity_progress : Option String := none
  grading_progress : Option String := none
  timestamp : Option String := none
  started_at : Option String := none
  submitted_at : Option String := none
  user_id : Option String := none
  comment : Option String := none
  extra_claims : Option (List (String × Json)) := none

/-- A possibly-unset numeric member as it lands in the `data` dict. -/
def optJsonNum : Option Int → Json
  | some n => Json.num n
  | none => Json.null

/-- A possibly-unset string member as it lands in the `data` dict. -/
def optJsonStr : Option String → Json
  | some s => Json.str s
  | none => Json.null

/-- The seven scalar entries of the `data` dict `Grade.get_value` builds. -/
def gradeBase (g : Grade) : List (String × Json) :=
  [("scoreGiven", optJsonNum g.score_given),
   ("scoreMaximum", optJsonNum g.score_maximum),
   ("activityProgress", optJsonStr g.activity_progress),
   ("gradingProgress", optJsonStr g.grading_progress),
   ("timestamp", optJsonStr g.timestamp),
   ("userId", optJsonStr g.user_id),
   ("comment", optJsonStr g.comment)]

/-- The `submission` sub-dict added when `started_at` or `submitted_at`
is set. -/
def gradeSubmission (g : Grade) : List (String × Json) :=
  [("startedAt", optJsonStr g.started_at),
   ("submittedAt", optJsonStr g.submitted_at)]

/-- The `data` dict before `data.update(extra_claims)`: the seven scalar
members, then `submission` when `started_at` or `submitted_at` is set. -/
def gradeDataNoExtra (g : Grade) : List (String × Json) :=
  if g.started_at.isSome || g.submitted_at.isSome then
    gradeBase g ++ [("submission", Json.obj (gradeSubmission g))]
  else gradeBase g

/-- The `data` dict `Grade.get_value` builds before `remove_nones`: the
seven scalar members, then `submission` when `started_at` or
`submitted_at` is set, then `data.update(extra_claims)`. -/
def gradeData (g : Grade) : List (String × Json) :=
  match g.extra_claims with
  | some ext => alistUpdate (gradeDataNoExtra g) ext
  | none => gradeDataNoExtra g

/-- A possibly-absent dict entry holding a number. -/
def entryNum (k : String) (o : Option Int) : List (String × Json) :=
  match o with
  | some n => [(k, Json.num n)]
  | none => []

/-- A possibly-absent dict entry holding a string. -/
def entryStr (k : String) (o : Option String) : List (String × Json) :=
  match o with
  | some s => [(k, Json.str s)]
  | none => []

/-- The expected `submission` member of the serialized grade: present
exactly when `started_at` or `submitted_at` is set, holding only the set
members. -/
def submissionSpec (g : Grade) : Option Json :=
  if g.started_at.isSome || g.submitted_at.isSome then
    some (Json.obj
      (entryStr "startedAt" g.started_at ++ entryStr "submittedAt" g.submitted_at))
  else none

/-- The `submission` entry of the cleaned dict, as a (possibly empty)
entry list. -/
def entrySub (g : Grade) : List (String × Json) :=
  if g.started_at.isSome || g.submitted_at.isSome then
    [("submission",
      Json.obj (entryStr "startedAt" g.started_at ++
        entryStr "submittedAt" g.submitted_at))]
  else []

/-- The keys `Grade.get_value` itself writes. -/
def gradeStdKeys : List String :=
  ["scoreGiven", "scoreMaximum", "activityProgress", "gradingProgress",
   "timestamp", "userId", "comment", "submission"]

/-- Well-behaved extra claims: their keys avoid the standard score keys and
each value survives `remove_nones` free of nulls — which rules out exactly
the nulls `remove_nones` cannot reach, those hidden inside list values. -/
def gradeExtraOk (g : Grade) : Bool :=
  match g.extra_claims with
  | none => true
  | some ext =>
      ext.all (fun kv =>
        gradeStdKeys.all (fun s => s != kv.1) &&
        (kv.2.isNull || noNull (removeNonesVal kv.2)))

/-- `Grade.get_value`: `json.dumps(remove_nones(data))`, modelled at the
JSON-value level (the value that is serialized; `json.dumps` itself adds no
and removes no `null`s). -/
def grade_get_value (g : Grade) : Json :=
  Json.obj (removeNonesFields (gradeData g))

end GradeModel

section Ags

/-! ## `src/pylti1p3/assignments_grades.py`

The service talks to the platform exclusively through
`ServiceConnector.make_service_request`; that call is abstracted as an
oracle `svc : SvcReq → Except SvcErr SvcResp`, and every issued request is
recorded in a trace so that "no network request is attempted" is the
statement that the trace is empty.  `AgsM` is the exception-plus-trace
monad the operations run in. -/

/-- One `make_service_request(scopes, url, ...)` call as issued by the
service (the keyword defaults of the Python signature). -/
structure SvcReq where
  scopes : List String
  url : String
  isPost : Bool := false
  /-- The POSTed payload, modelled at the JSON-value level. -/
  data : Option Json := none
  contentType : String := "application/json"
  accept : String := "application/json"

/-- Exceptions escaping an `AssignmentsGradesService` operation:
`LtiException` with its message, a propagated service/connector error, or
one of the built-in Python exceptions the code can hit (`KeyError` for a
missing `_service_data` key, `AssertionError` for `assert score_url is not
None`, `MissingSchema` when a `None` URL reaches `requests`). -/
inductive AgsErr : Type where
  | lti (msg : String) : AgsErr
  | svc (e : SvcErr) : AgsErr
  | keyError (key : String) : AgsErr
  | assertionError : AgsErr
  | missingSchema : AgsErr

/-- The AGS operation monad: accumulate the list of issued service
requests, short-circuit on an exception. -/
def AgsM (α : Type) : Type := List SvcReq → Except AgsErr α × List SvcReq

instance : Monad AgsM where
  pure a := fun t => (Except.ok a, t)
  bind m f := fun t =>
    match m t with
    | (Except.ok a, t') => f a t'
    | (Except.error e, t') => (Except.error e, t')

/-- Raise an exception. -/
def throwA {α : Type} (e : AgsErr) : AgsM α := fun t => (Except.error e, t)

/-- Issue one `make_service_request` call through the oracle, recording it
in the trace. -/
def callSvc (svc : SvcReq → Except SvcErr SvcResp) (req : SvcReq) :
    AgsM SvcResp := fun t =>
  match svc req with
  | Except.error e => (Except.error (AgsErr.svc e), t ++ [req])
  | Except.ok r => (Except.ok r, t ++ [req])

/-- Run an operation with an empty trace. -/
def runAgs {α : Type} (m : AgsM α) : Except AgsErr α × List SvcReq := m []

/-- The `_service_data` claim block.  The two endpoint keys are optional in
the `TAssignmentsGradersData` TypedDict, and the code reads them both by
direct indexing (raising `KeyError` when absent) and via `.get` — so each
is `none` (key absent), `some none` (key present, value `None`) or
`some (some url)`. -/
structure AgsData where
  scope : List String
  lineitems : Option (Option String) := none
  lineitem : Option (Option String) := none

/-- The four AGS scope URIs of `TAssignmentsGradersData`. -/
def score_scope : String := "https://purl.imsglobal.org/spec/lti-ags/scope/score"

/-- Result read-only scope URI. -/
def result_readonly_scope : String :=
  "https://purl.imsglobal.org/spec/lti-ags/scope/result.readonly"

/-- Lineitem full-access scope URI. -/
def lineitem_scope : String := "https://purl.imsglobal.org/spec/lti-ags/scope/lineitem"

/-- Lineitem read-only scope URI. -/
def lineitem_readonly_scope : String :=
  "https://purl.imsglobal.org/spec/lti-ags/scope/lineitem.readonly"

/-- `AssignmentsGradesService.can_read_lineitem`. -/
def can_read_lineitem (d : AgsData) : Bool :=
  d.scope.contains lineitem_readonly_scope || d.scope.contains lineitem_scope

/-- `AssignmentsGradesService.can_create_lineitem`. -/
def can_create_lineitem (d : AgsData) : Bool :=
  d.scope.contains lineitem_scope

/-- `AssignmentsGradesService.can_read_grades`. -/
def can_read_grades (d : AgsData) : Bool :=
  d.scope.contains result_readonly_scope

/-- `AssignmentsGradesService.can_put_grade`. -/
def can_put_grade (d : AgsData) : Bool :=
  d.scope.contains score_scope

/-- Modelled from the spec: `LineItem` (`pylti1p3/lineitem.py` is not under
`src/`) is a value object mirroring the vendor line-item JSON shape, carried
here as its dict representation; `get_value` serializes exactly this dict. -/
abbrev LineItem : Type := List (String × Json)

/-- Modelled from the spec: the `LineItem` string-member accessors
(`get_id`, `get_tag`, `get_resource_link_id`, `get_resource_id`) return the
stored string member or `None`. -/
def liGetStr (li : LineItem) (k : String) : Option String :=
  match alistGet li k with
  | some (Json.str s) => some s
  | _ => none

/-- Truthiness of an `Optional[str]` (`if not x:`). -/
def optStrTruthy : Option String → Bool
  | some s => s != ""
  | none => false

/-- `x.get(prop_name) == prop_value` for a string `prop_value` and a
line-item dict `x` (a non-dict page entry would raise in Python; no claim
exercises that path, so it simply compares unequal here). -/
def pyEqStr (x : Json) (k v : String) : Bool :=
  match x with
  | Json.obj fields =>
      match alistGet fields k with
      | some (Json.str s) => s == v
      | _ => false
  | _ => false

/-- The page request `get_lineitems`/`find_lineitem_satisfying` issue. -/
def lineitemsPageReq (d : AgsData) (url : String) : SvcReq :=
  { scopes := d.scope, url := url,
    accept := "application/vnd.ims.lis.v2.lineitemcontainer+json" }

/-- The page loop of `get_lineitems`: follow `next_page_url`, require every
page body to be a list, and concatenate the yielded items.  `fuel` bounds
the recursion (irrelevant whenever it exceeds the page count); the loop
variable is falsy-`""` exactly as in `get_paginated_data`. -/
def get_lineitems_loop (svc : SvcReq → Except SvcErr SvcResp) (d : AgsData) :
    Nat → String → AgsM (List Json)
  | 0, _ => pure []
  | fuel + 1, url =>
      if url = "" then pure []
      else do
        let page ← callSvc svc (lineitemsPageReq d url)
        match page.body with
        | some (Json.arr items) => do
            let rest ← get_lineitems_loop svc d fuel (page.next_page_url.getD "")
            pure (items ++ rest)
        | _ => throwA (AgsErr.lti "Unknown response type received for line items")

/-- `AssignmentsGradesService.get_lineitems` (run to completion, as
`list(...)` would): *no scope check* — the method reads
`_service_data["lineitems"]`, returns an empty sequence when the value is
`None`, and otherwise pages through the container. -/
def get_lineitems (svc : SvcReq → Except SvcErr SvcResp) (d : AgsData)
    (fuel : Nat) : AgsM (List Json) :=
  match d.lineitems with
  | none => throwA (AgsErr.keyError "lineitems")
  | some none => pure []
  | some (some url) => get_lineitems_loop svc d fuel url

/-- The lazy scan of `find_lineitem_satisfying`: pages are fetched only
until an item satisfies the condition (the generator is abandoned then). -/
def find_lineitem_loop (svc : SvcReq → Except SvcErr SvcResp) (d : AgsData)
    (cond : Json → Bool) : Nat → String → AgsM (Option Json)
  | 0, _ => pure none
  | fuel + 1, url =>
      if url = "" then pure none
      else do
        let page ← callSvc svc (lineitemsPageReq d url)
        match page.body with
        | some (Json.arr items) =>
            match items.find? cond with
            | some item => pure (some item)
            | none => find_lineitem_loop svc d cond fuel (page.next_page_url.getD "")
        | _ => throwA (AgsErr.lti "Unknown response type received for line items")

/-- `AssignmentsGradesService.find_lineitem_satisfying`: first item of the
`get_lineitems` generator meeting the condition, or `None`. -/
def find_lineitem_satisfying (svc : SvcReq → Except SvcErr SvcResp)
    (d : AgsData) (cond : Json → Bool) (fuel : Nat) : AgsM (Option Json) :=
  match d.lineitems with
  | none => throwA (AgsErr.keyError "lineitems")
  | some none => pure none
  | some (some url) => find_lineitem_loop svc d cond fuel url

/-- `AssignmentsGradesService.find_lineitem`: match on one property. -/
def find_lineitem (svc : SvcReq → Except SvcErr SvcResp) (d : AgsData)
    (prop v : String) (fuel : Nat) : AgsM (Option Json) :=
  find_lineitem_satisfying svc d (fun x => pyEqStr x prop v) fuel

/-- `AssignmentsGradesService.create_lineitem`: scope gate, then POST the
serialized lineitem to `_service_data["lineitems"]`; the response body must
be a dict. -/
def create_lineitem (svc : SvcReq → Except SvcErr SvcResp) (d : AgsData)
    (new_li : LineItem) : AgsM Json := do
  if !can_create_lineitem d then
    throwA (AgsErr.lti "Can't create lineitem: Missing required scope")
  else
    match d.lineitems with
    | none => throwA (AgsErr.keyError "lineitems")
    | some none => throwA AgsErr.missingSchema
    | some (some url) => do
        let resp ← callSvc svc
          { scopes := d.scope, url := url, isPost := true,
            data := some (Json.obj new_li),
            contentType := "application/vnd.ims.lis.v2.lineitem+json",
            accept := "application/vnd.ims.lis.v2.lineitem+json" }
        match resp.body with
        | some (Json.obj fields) => pure (Json.obj fields)
        | _ => throwA (AgsErr.lti "Unknown response type received for create line item")

/-- `AssignmentsGradesService.find_or_create_lineitem` for the default
`condition=None` path: look the lineitem up by the `find_by` property
(refusing a falsy property value), return the match unmodified, else create. -/
def find_or_create_lineitem (svc : SvcReq → Except SvcErr SvcResp)
    (d : AgsData) (fuel : Nat) (new_li : LineItem) (find_by : String) :
    AgsM Json := do
  let found ←
    if find_by = "tag" then
      let tag := liGetStr new_li "tag"
      if !optStrTruthy tag then throwA (AgsErr.lti "Tag value is not specified")
      else find_lineitem svc d "tag" (tag.getD "") fuel
    else if find_by = "id" then
      let line_id := liGetStr new_li "id"
      if !optStrTruthy line_id then throwA (AgsErr.lti "ID value is not specified")
      else find_lineitem svc d "id" (line_id.getD "") fuel
    else if find_by = "resource_link_id" then
      let rlid := liGetStr new_li "resourceLinkId"
      if !optStrTruthy rlid then
        throwA (AgsErr.lti "Resource Link ID value is not specified")
      else find_lineitem svc d "resourceLinkId" (rlid.getD "") fuel
    else if find_by = "resource_id" then
      let rid := liGetStr new_li "resourceId"
      if !optStrTruthy rid then
        throwA (AgsErr.lti "Resource ID value is not specified")
      else find_lineitem svc d "resourceId" (rid.getD "") fuel
    else throwA (AgsErr.lti ("Invalid \"find_by\" value: " ++ find_by))
  match found with
  | some li => pure li
  | none => create_lineitem svc d new_li

/-- `AssignmentsGradesService.put_grade`: scope gate first; resolve the
score URL (an explicit lineitem, created on the fly when it has no truthy
id, else the launch-bound `lineitem` endpoint); append the `scores` path
segment; POST the serialized grade as
`application/vnd.ims.lis.v1.score+json`. -/
def put_grade (svc : SvcReq → Except SvcErr SvcResp) (d : AgsData)
    (fuel : Nat) (grade : Grade) (lineitem : Option LineItem) :
    AgsM SvcResp := do
  if !can_put_grade d then
    throwA (AgsErr.lti "Can't put grade: Missing required scope")
  else do
    let score_url ←
      match lineitem with
      | some li =>
          if !optStrTruthy (liGetStr li "id") then do
            let created ← find_or_create_lineitem svc d fuel li "tag"
            match created with
            | Json.obj fields =>
                match liGetStr fields "id" with
                | some u => pure u
                | none => throwA AgsErr.assertionError
            | _ => throwA AgsErr.assertionError
          else
            match liGetStr li "id" with
            | some u => pure u
            | none => throwA AgsErr.assertionError
      | none =>
          match d.lineitem with
          | some (some u) =>
              if u != "" then pure u
              else throwA (AgsErr.lti "Can't find lineitem to put grade")
          | _ => throwA (AgsErr.lti "Can't find lineitem to put grade")
    callSvc svc
      { scopes := d.scope, url := addUrlPathEnding score_url "scores",
        isPost := true, data := some (grade_get_value grade),
        contentType := "application/vnd.ims.lis.v1.score+json" }

/-- `AssignmentsGradesService.get_lineitem`: scope gate, then a single GET
of the given URL (or of `_service_data["lineitem"]` when called with
`None`); the body is wrapped unchecked. -/
def get_lineitem (svc : SvcReq → Except SvcErr SvcResp) (d : AgsData)
    (lineitem_url : Option String) : AgsM SvcResp := do
  if !can_read_lineitem d then
    throwA (AgsErr.lti "Can't read lineitem: Missing required scope")
  else do
    let url ←
      match lineitem_url with
      | some u => pure u
      | none =>
          match d.lineitem with
          | none => throwA (AgsErr.keyError "lineitem")
          | some none => throwA AgsErr.missingSchema
          | some (some u) => pure u
    callSvc svc
      { scopes := d.scope, url := url,
        accept := "application/vnd.ims.lis.v2.lineitem+json" }

/-- `AssignmentsGradesService.get_lineitems_page`: scope gate, then one GET
(falling back to `_service_data["lineitems"]` when the argument is falsy);
the body must be a list; returns `(items, next_page_url)`. -/
def get_lineitems_page (svc : SvcReq → Except SvcErr SvcResp) (d : AgsData)
    (lineitems_url : Option String) : AgsM (List Json × Option String) := do
  if !can_read_lineitem d then
    throwA (AgsErr.lti "Can't read lineitem: Missing required scope")
  else do
    let url ←
      match (match lineitems_url with
             | some u => if u = "" then none else some u
             | none => none) with
      | some u => pure u
      | none =>
          match d.lineitems with
          | none => throwA (AgsErr.keyError "lineitems")
          | some none => throwA AgsErr.missingSchema
          | some (some u) => pure u
    let page ← callSvc svc (lineitemsPageReq d url)
    match page.body with
    | some (Json.arr items) => pure (items, page.next_page_url)
    | _ => throwA (AgsErr.lti "Unknown response type received for line items")

/-- The `results` pagination loop of `get_grades`; every page body must be
a list. -/
def get_grades_loop (svc : SvcReq → Except SvcErr SvcResp) (d : AgsData) :
    Nat → String → AgsM (List Json)
  | 0, _ => pure []
  | fuel + 1, url =>
      if url = "" then pure []
      else do
        let page ← callSvc svc
          { scopes := d.scope, url := url,
            accept := "application/vnd.ims.lis.v2.resultcontainer+json" }
        match page.body with
        | some (Json.arr items) => do
            let rest ← get_grades_loop svc d fuel (page.next_page_url.getD "")
            pure (items ++ rest)
        | _ => throwA (AgsErr.lti "Unknown response type received for results")

/-- `AssignmentsGradesService.get_grades` (run to completion): scope gate
first; resolve the lineitem id (explicit lineitem or the launch-bound one);
a falsy id yields the empty sequence; else page through
`<lineitem>/results`. -/
def get_grades (svc : SvcReq → Except SvcErr SvcResp) (d : AgsData)
    (fuel : Nat) (lineitem : Option LineItem) : AgsM (List Json) := do
  if !can_read_grades d then
    throwA (AgsErr.lti "Can't read grades: Missing required scope")
  else do
    let lineitem_id : Option String :=
      match lineitem with
      | some li => liGetStr li "id"
      | none =>
          match d.lineitem with
          | some (some u) => some u
          | _ => none
    match lineitem_id with
    | none => pure []
    | some u =>
        if u = "" then pure []
        else get_grades_loop svc d fuel (addUrlPathEnding u "results")

end Ags

section DynReg

/-! ## `src/pylti1p3/dynamic_registration.py` -/

/-- Network traffic `DynamicRegistration.register` can cause: the GET of
the OpenID configuration and the POST to the registration endpoint. -/
inductive RegEvent : Type where
  | get (url : String) : RegEvent
  | post (url : String) : RegEvent

/-- Is a `RegEvent` a POST? -/
def RegEvent.isPost : RegEvent → Bool
  | RegEvent.post _ => true
  | RegEvent.get _ => false

/-- Exceptions escaping `register`: `LtiException`, a failed `assert`
(with its message), a `JSONDecodeError` from `response.json()` on the
registration response, and a `TypeError` when a non-string registration
endpoint reaches `requests.post`. -/
inductive RegError : Type where
  | lti (msg : String) : RegError
  | assertionError (msg : String) : RegError
  | jsonDecodeError : RegError
  | typeError : RegError

/-- The platform-configuration claim key. -/
def conf_spec : String := "https://purl.imsglobal.org/spec/lti-platform-configuration"

/-- The tool-configuration claim key. -/
def tool_spec : String := "https://purl.imsglobal.org/spec/lti-tool-configuration"

/-- `DynamicRegistration.register` (lines 243-294).  Inputs: the
`openid_configuration` endpoint URL, the registration token, the decoded
OpenID configuration the GET returns (`none` = `resp.json()` raised, which
`get_openid_configuration` converts to `LtiException`), and the decoded
registration response of the POST (`none` = undecodable).  The registration
payload (`lti_registration_data`) carries no information the control flow
reads, so it is not modelled.  Output: either the
`(openid_configuration, openid_registration)` pair handed to the
`complete_registration` hook, or the exception — together with the list of
network events in order. -/
def register (endpoint : String) (cfgResp : Option (List (String × Json)))
    (postResp : Option (List (String × Json))) :
    Except RegError (List (String × Json) × List (String × Json)) × List RegEvent :=
  if endpoint = "" then
    (Except.error (RegError.lti "No OpenID configuration endpoint was specified."), [])
  else
    match cfgResp with
    | none =>
        (Except.error (RegError.lti "The OpenID configuration data is invalid"),
         [RegEvent.get endpoint])
    | some cfg =>
        if !alistHasKey cfg "registration_endpoint" then
          (Except.error (RegError.assertionError
            "The OpenID config does not have a registration endpoint."),
           [RegEvent.get endpoint])
        else
          match alistGet cfg "registration_endpoint" with
          | some (Json.str regEndpoint) =>
              let trace := [RegEvent.get endpoint, RegEvent.post regEndpoint]
              match postResp with
              | none => (Except.error RegError.jsonDecodeError, trace)
              | some reg =>
                  if !alistHasKey cfg conf_spec then
                    (Except.error (RegError.assertionError
                      "The OpenID config is not an LTI platform configuration"), trace)
                  else if !alistHasKey reg tool_spec then
                    (Except.error (RegError.assertionError
                      "The OpenID registration is not an LTI tool configuration"), trace)
                  else (Except.ok (cfg, reg), trace)
          | _ => (Except.error RegError.typeError, [RegEvent.get endpoint])

end DynReg

section OrderLemmas

/-! ## Order facts about the code-point order used by `sorted` -/

theorem charListLe_cons_self (x : Char) (as bs : List Char) :
    charListLe (x :: as) (x :: bs) = charListLe as bs := by
  simp [charListLe]

theorem charListLe_total : ∀ a b : List Char,
    charListLe a b = true ∨ charListLe b a = true := by
  intro a
  induction a with
  | nil => intro b; left; rfl
  | cons x xs ih =>
    intro b
    cases b with
    | nil => right; rfl
    | cons y ys =>
      by_cases hxy : x = y
      · subst hxy
        rcases ih ys with h | h
        · left; rw [charListLe_cons_self]; exact h
        · right; rw [charListLe_cons_self]; exact h
      · rcases lt_or_gt_of_ne hxy with h | h
        · left; simp [charListLe, if_neg hxy, h]
        · right; simp [charListLe, if_neg (Ne.symm hxy), h]

theorem charListLe_trans : ∀ a b c : List Char,
    charListLe a b = true → charListLe b c = true → charListLe a c = true := by
  intro a
  induction a with
  | nil => intro b c _ _; rfl
  | cons x xs ih =>
    intro b c hab hbc
    cases b with
    | nil => simp [charListLe] at hab
    | cons y ys =>
      cases c with
      | nil => simp [charListLe] at hbc
      | cons z zs =>
        by_cases hxy : x = y <;> by_cases hyz : y = z
        · subst hxy; subst hyz
          simp only [charListLe, if_pos rfl] at hab hbc ⊢
          exact ih ys zs hab hbc
        · subst hxy
          simp only [charListLe, if_pos rfl, if_neg hyz] at hab hbc ⊢
          exact hbc
        · subst hyz
          simp only [charListLe, if_neg hxy] at hab ⊢
          exact hab
        · simp only [charListLe, if_neg hxy, if_neg hyz, decide_eq_true_eq] at hab hbc
          have hxz : x < z := lt_trans hab hbc
          have : x ≠ z := ne_of_lt hxz
          simp [charListLe, if_neg this, hxz]

theorem charListLe_antisymm : ∀ a b : List Char,
    charListLe a b = true → charListLe b a = true → a = b := by
  intro a
  induction a with
  | nil =>
    intro b _ hba
    cases b with
    | nil => rfl
    | cons y ys => simp [charListLe] at hba
  | cons x xs ih =>
    intro b hab hba
    cases b with
    | nil => simp [charListLe] at hab
    | cons y ys =>
      by_cases hxy : x = y
      · subst hxy
        simp only [charListLe, if_pos rfl] at hab hba
        rw [ih ys hab hba]
      · simp only [charListLe, if_neg hxy, if_neg (Ne.symm hxy),
          decide_eq_true_eq] at hab hba
        exact absurd hba (lt_asymm hab)

instance : IsTotal String (fun a b => strLe a b = true) :=
  ⟨fun a b => charListLe_total a.toList b.toList⟩

instance : IsTrans String (fun a b => strLe a b = true) :=
  ⟨fun a b c => charListLe_trans a.toList b.toList c.toList⟩

instance : IsAntisymm String (fun a b => strLe a b = true) := by
  refine ⟨fun a b hab hba => ?_⟩
  have h := charListLe_antisymm a.toList b.toList hab hba
  cases a; cases b
  exact congrArg String.mk h

theorem pySorted_perm_invariant (s1 s2 : List String) (h : s1.Perm s2) :
    pySorted s1 = pySorted s2 :=
  List.eq_of_perm_of_sorted
    ((List.perm_insertionSort _ s1).trans
      (h.trans (List.perm_insertionSort _ s2).symm))
    (List.sorted_insertionSort _ s1)
    (List.sorted_insertionSort _ s2)

end OrderLemmas

section SplitLemmas

/-! ## `split` facts for the URL path composition -/

theorem splitChar_no_sep (sep : Char) :
    ∀ b : List Char, sep ∉ b → splitChar sep b = [b] := by
  intro b
  induction b with
  | nil => intro _; rfl
  | cons c rest ih =>
    intro h
    have hc : ¬c = sep := fun hh => h (hh ▸ List.mem_cons_self c rest)
    have hrest : sep ∉ rest := fun hh => h (List.mem_cons_of_mem c hh)
    simp [splitChar, hc, ih hrest]

theorem splitChar_append (sep : Char) :
    ∀ a b : List Char, sep ∉ a →
      splitChar sep (a ++ sep :: b) = a :: splitChar sep b := by
  intro a
  induction a with
  | nil => intro b _; simp [splitChar]
  | cons c rest ih =>
    intro b h
    have hc : ¬c = sep := fun hh => h (hh ▸ List.mem_cons_self c rest)
    have hrest : sep ∉ rest := fun hh => h (List.mem_cons_of_mem c hh)
    simp [splitChar, hc, ih b hrest]

end SplitLemmas

section CacheLemmas

theorem cacheGet_cacheSet : ∀ (cache : TokenCache) (k : String)
    (entry : Json × Int), cacheGet (cacheSet cache k entry) k = some entry := by
  intro cache k entry
  induction cache with
  | nil => simp [cacheSet, cacheGet, List.find?]
  | cons kv rest ih =>
    by_cases h : kv.1 = k
    · simp [cacheSet, h, cacheGet, List.find?]
    · have hb : (kv.1 == k) = false := beq_false_of_ne h
      simp only [cacheSet, hb, Bool.false_eq_true, if_false]
      simpa [cacheGet, List.find?, hb] using ih

end CacheLemmas

section ClaimC5

/-- C5, counterexample: the claim asserts every cache binding stores the
token with effective TTL `max(1, expires_in - 10)`; the base in-process
binding does not.  At `now = 0` with `expires_in = 3600` the base
`_cache_access_token` stores absolute expiry `3600`, while the claimed TTL
rule would store `0 + max(1, 3600 - 10) = 3590`. -/
theorem c5_ttl_counterexample :
    cacheGet (cache_access_token [] "scope-key" (Json.str "token") 3600 0)
        "scope-key" = some (Json.str "token", 3600)
    ∧ (0 : Int) + max 1 (3600 - 10) = 3590
    ∧ (3600 : Int) ≠ 3590 :=
  ⟨rfl, by decide, by decide⟩

/-- C5, amended: the in-process and Flask class-level caches never serve an
entry past its stored expiry (`expires > datetime.now()` is checked on
read), but both store the token with effective TTL exactly `expires_in`
(`0` when the provider omits it) — no safety margin; only the Django
binding applies the `max(1, expires_in - 10)` margin, as the timeout it
hands to the external Django cache. -/
theorem c5_cache_ttl :
    (∀ (cache : TokenCache) (k : String) (now : Int) (tok : Json),
        get_cached_access_token cache k now = some tok →
        ∃ expires, cacheGet cache k = some (tok, expires) ∧ now < expires)
  ∧ (∀ (cache : TokenCache) (k : String) (now : Int) (tok : Json),
        flask_get_cached_access_token cache k now = some tok →
        ∃ expires, cacheGet cache k = some (tok, expires) ∧ now < expires)
  ∧ (∀ (cache : TokenCache) (k : String) (tok : Json) (e now : Int),
        cacheGet (cache_access_token cache k tok e now) k = some (tok, now + e))
  ∧ (∀ (cache : TokenCache) (k : String) (tok : Json) (e now : Int),
        cacheGet (flask_cache_access_token cache k tok e now) k = some (tok, now + e))
  ∧ (∀ (k : String) (tok : Json) (e : Int),
        django_cache_access_token k tok e =
          (django_get_cache_key k, tok, max 1 (e - 10))) := by
  refine ⟨?_, ?_, ?_, ?_, ?_⟩
  · intro cache k now tok h
    unfold get_cached_access_token at h
    cases hc : cacheGet cache k with
    | none => rw [hc] at h; exact absurd h (by simp)
    | some entry =>
        obtain ⟨t, expires⟩ := entry
        rw [hc] at h
        dsimp only at h
        by_cases hlt : now < expires
        · rw [if_pos hlt] at h
          injection h with h'
          exact ⟨expires, by rw [h'], hlt⟩
        · rw [if_neg hlt] at h; exact absurd h (by simp)
  · intro cache k now tok h
    unfold flask_get_cached_access_token at h
    cases hc : cacheGet cache k with
    | none => rw [hc] at h; exact absurd h (by simp)
    | some entry =>
        obtain ⟨t, expires⟩ := entry
        rw [hc] at h
        dsimp only at h
        by_cases hlt : now < expires
        · rw [if_pos hlt] at h
          injection h with h'
          exact ⟨expires, by rw [h'], hlt⟩
        · rw [if_neg hlt] at h; exact absurd h (by simp)
  · intro cache k tok e now
    unfold cache_access_token
    exact cacheGet_cacheSet cache k (tok, now + e)
  · intro cache k tok e now
    unfold flask_cache_access_token
    exact cacheGet_cacheSet cache k (tok, now + e)
  · intro k tok e; rfl

/-- C5, witness for the read-side conjuncts of `c5_cache_ttl` at a concrete
cache. -/
theorem c5_cache_ttl_witness :
    (∃ expires, cacheGet [("k", (Json.str "tok", 50))] "k"
        = some (Json.str "tok", expires) ∧ (10 : Int) < expires)
  ∧ (∃ expires, cacheGet [("k", (Json.str "tok", 50))] "k"
        = some (Json.str "tok", expires) ∧ (49 : Int) < expires) :=
  ⟨c5_cache_ttl.1 [("k", (Json.str "tok", 50))] "k" 10 (Json.str "tok") rfl,
   c5_cache_ttl.2.1 [("k", (Json.str "tok", 50))] "k" 49 (Json.str "tok") rfl⟩

end ClaimC5

section ClaimC6

/-- C6, counterexample: the two scope lists hold the same *set* of scope
strings (they deduplicate to the same list), yet the computed cache keys
differ — `_scope_key` sorts but never deduplicates, so the joined strings
`issuer|s` and `issuer|s|s` hash to different MD5 digests. -/
theorem c6_dedup_counterexample :
    ([score_scope, score_scope].dedup = [score_scope].dedup)
    ∧ scope_key "https://platform.example" [score_scope, score_scope] ≠
        scope_key "https://platform.example" [score_scope] := by
  constructor
  · decide
  · decide

/-- C6, amended: the token-cache key is invariant under *reordering* of the
scope list — scopes are sorted (not deduplicated) before being joined with
the issuer and hashed — so any two scope lists that are permutations of one
another (same multiset) produce the same cache key. -/
theorem c6_scope_key_reorder_invariant (issuer : String) (s1 s2 : List String)
    (h : s1.Perm s2) : scope_key issuer s1 = scope_key issuer s2 := by
  unfold scope_key
  rw [pySorted_perm_invariant s1 s2 h]

/-- C6, witness: swapping two real AGS scopes leaves the key unchanged. -/
theorem c6_scope_key_reorder_invariant_witness :
    scope_key "https://platform.example" [score_scope, lineitem_scope] =
      scope_key "https://platform.example" [lineitem_scope, score_scope] :=
  c6_scope_key_reorder_invariant "https://platform.example"
    [score_scope, lineitem_scope] [lineitem_scope, score_scope]
    (List.Perm.swap lineitem_scope score_scope [])

end ClaimC6

section ClaimC7

/-- C7, counterexample: with a second `'?'` in the URL the original query
string is *not* preserved unchanged — `url.split("?")` keeps only the text
between the first and second `'?'` and silently drops the rest, so the
claimed output `http://p/li/scores?x=1?y=2` is not what the code returns. -/
theorem c7_query_counterexample :
    addUrlPathEnding "http://p/li?x=1?y=2" "scores" = "http://p/li/scores?x=1"
    ∧ "http://p/li/scores?x=1" ≠ "http://p/li/scores?x=1?y=2" :=
  ⟨rfl, by decide⟩

/-- C7, amended: `_add_url_path_ending` inserts exactly one path segment
before the query string *as long as the URL holds at most one `'?'`*: with
no `'?'` the segment is appended after a slash-terminated path; with
exactly one `'?'` the query survives unchanged; with further `'?'`s only
the portion between the first and second `'?'` is kept. -/
theorem c7_add_url_path_ending :
    (∀ url ending : List Char, '?' ∉ url →
        addUrlPathEndingL url ending =
          url ++ (if endsWithSlash url then [] else ['/']) ++ ending)
  ∧ (∀ a b ending : List Char, '?' ∉ a → '?' ∉ b →
        addUrlPathEndingL (a ++ ('?' :: b)) ending =
          (a ++ (if endsWithSlash a then [] else ['/'])) ++ ending ++ ('?' :: b))
  ∧ (∀ a b c ending : List Char, '?' ∉ a → '?' ∉ b →
        addUrlPathEndingL (a ++ ('?' :: (b ++ ('?' :: c)))) ending =
          (a ++ (if endsWithSlash a then [] else ['/'])) ++ ending ++ ('?' :: b)) := by
  refine ⟨?_, ?_, ?_⟩
  · intro url ending h
    unfold addUrlPathEndingL
    rw [if_neg h]
  · intro a b ending ha hb
    have hmem : '?' ∈ a ++ ('?' :: b) :=
      List.mem_append_right a (List.mem_cons_self _ _)
    unfold addUrlPathEndingL
    rw [if_pos hmem]
    simp only [splitChar_append '?' a b ha, splitChar_no_sep '?' b hb,
      List.headD, List.getD, List.get?_cons_succ, List.get?_cons_zero,
      List.getElem?_cons_succ, List.getElem?_cons_zero, Option.getD_some]
  · intro a b c ending ha hb
    have hmem : '?' ∈ a ++ ('?' :: (b ++ ('?' :: c))) :=
      List.mem_append_right a (List.mem_cons_self _ _)
    unfold addUrlPathEndingL
    rw [if_pos hmem]
    simp only [splitChar_append '?' a _ ha, splitChar_append '?' b c hb,
      List.headD, List.getD, List.get?_cons_succ, List.get?_cons_zero,
      List.getElem?_cons_succ, List.getElem?_cons_zero, Option.getD_some]

/-- C7, witness: the single-`'?'` case at a concrete URL. -/
theorem c7_add_url_path_ending_witness :
    addUrlPathEndingL ("http://p/li".toList ++ ('?' :: "x=1".toList))
        "scores".toList =
      ("http://p/li".toList ++
        (if endsWithSlash "http://p/li".toList then [] else ['/'])) ++
        "scores".toList ++ ('?' :: "x=1".toList) :=
  c7_add_url_path_ending.2.1 "http://p/li".toList "x=1".toList "scores".toList
    (by decide) (by decide)

end ClaimC7

section AlistLemmas

theorem alistGet_hasKey : ∀ (l : List (String × Json)) (k : String) (v : Json),
    alistGet l k = some v → alistHasKey l k = true := by
  intro l k v
  induction l with
  | nil => intro h; simp [alistGet, List.find?] at h
  | cons kv rest ih =>
    intro h
    by_cases hk : (kv.1 == k) = true
    · simp [alistHasKey, hk]
    · simp only [alistGet, List.find?, hk] at h
      simp only [alistHasKey, List.any_cons, hk, Bool.false_or]
      exact ih h

end AlistLemmas

section ClaimC1

/-- C1, counterexample: an OpenID configuration that carries a
`registration_endpoint` but lacks the
`https://purl.imsglobal.org/spec/lti-platform-configuration` claim.
`register` *does* issue the POST to the registration endpoint — the
platform-configuration assert only fires afterwards — contradicting the
claim that no network POST occurs. -/
theorem c1_post_before_check_counterexample :
    register "https://platform.example/.well-known/openid-configuration"
        (some [("registration_endpoint", Json.str "https://platform.example/register")])
        (some []) =
      (Except.error (RegError.assertionError
          "The OpenID config is not an LTI platform configuration"),
       [RegEvent.get "https://platform.example/.well-known/openid-configuration",
        RegEvent.post "https://platform.example/register"])
    ∧ [RegEvent.get "https://platform.example/.well-known/openid-configuration",
       RegEvent.post "https://platform.example/register"].any RegEvent.isPost = true :=
  ⟨rfl, rfl⟩

/-- C1, amended: for every OpenID configuration lacking the
platform-configuration claim, `register` never reaches
`complete_registration` (the result is an exception) — but the failure is
the `assert` placed *after* the registration POST: when the configuration
carries a (string) `registration_endpoint` and the POST response decodes,
the trace is exactly `[GET config, POST registration_endpoint]` followed by
the `AssertionError`.  No POST happens only when the configuration lacks
`registration_endpoint` (or could not be fetched/decoded at all). -/
theorem c1_register_platform_claim :
    (∀ (ep : String) (cfg : List (String × Json))
        (postResp : Option (List (String × Json))),
        alistHasKey cfg conf_spec = false →
        (register ep (some cfg) postResp).1.isOk = false)
  ∧ (∀ (ep : String) (cfg : List (String × Json))
        (postResp : Option (List (String × Json))),
        alistHasKey cfg "registration_endpoint" = false →
        (register ep (some cfg) postResp).2.any RegEvent.isPost = false)
  ∧ (∀ (ep : String) (postResp : Option (List (String × Json))),
        (register ep none postResp).2.any RegEvent.isPost = false)
  ∧ (∀ (ep u : String) (cfg reg : List (String × Json)),
        ep ≠ "" →
        alistGet cfg "registration_endpoint" = some (Json.str u) →
        alistHasKey cfg conf_spec = false →
        register ep (some cfg) (some reg) =
          (Except.error (RegError.assertionError
              "The OpenID config is not an LTI platform configuration"),
           [RegEvent.get ep, RegEvent.post u])) := by
  refine ⟨?_, ?_, ?_, ?_⟩
  · intro ep cfg postResp h
    unfold register
    by_cases hep : ep = ""
    · rw [if_pos hep]; rfl
    · rw [if_neg hep]
      cases hre : alistHasKey cfg "registration_endpoint" with
      | false => simp only [hre, Bool.not_false, if_true]; rfl
      | true =>
        simp only [hre, Bool.not_true, Bool.false_eq_true, if_false]
        cases hget : alistGet cfg "registration_endpoint" with
        | none => rfl
        | some v =>
          cases v <;> try rfl
          cases postResp with
          | none => rfl
          | some reg => simp only [h, Bool.not_false, if_true]; rfl
  · intro ep cfg postResp h
    unfold register
    by_cases hep : ep = ""
    · simp [hep]
    · rw [if_neg hep]
      simp [h, RegEvent.isPost]
  · intro ep postResp
    unfold register
    by_cases hep : ep = ""
    · simp [hep]
    · rw [if_neg hep]
      simp [RegEvent.isPost]
  · intro ep u cfg reg hep hget h
    have hre := alistGet_hasKey cfg "registration_endpoint" (Json.str u) hget
    unfold register
    rw [if_neg hep]
    simp only [hre, hget, h, Bool.not_true, Bool.not_false, Bool.false_eq_true,
      if_false, if_true]

/-- C1, witness: the no-POST conjunct at a configuration without a
registration endpoint, and the post-then-fail conjunct at a concrete
configuration. -/
theorem c1_register_platform_claim_witness :
    (register "https://p/.wk" (some [("issuer", Json.str "https://p")]) none).2.any
        RegEvent.isPost = false
    ∧ register "https://p/.wk"
        (some [("registration_endpoint", Json.str "https://p/reg")]) (some []) =
      (Except.error (RegError.assertionError
          "The OpenID config is not an LTI platform configuration"),
       [RegEvent.get "https://p/.wk", RegEvent.post "https://p/reg"]) :=
  ⟨c1_register_platform_claim.2.1 "https://p/.wk" [("issuer", Json.str "https://p")]
      none rfl,
   c1_register_platform_claim.2.2.2 "https://p/.wk" "https://p/reg"
      [("registration_endpoint", Json.str "https://p/reg")] [] (by decide) rfl rfl⟩

end ClaimC1

section ClaimC2

/-- C2, counterexample: `requests.Response.ok` is `status_code < 400`, not
"2xx".  A `304 Not Modified` (empty body) is not a 2xx success, yet
`make_service_request` returns normally instead of raising
`LtiServiceException` — the claimed "if and only if" fails. -/
theorem c2_304_counterexample :
    make_service_request { status := 304, content := "", json := none, headers := [] } =
      Except.ok { headers := [], body := none, next_page_url := none }
    ∧ is2xx 304 = false :=
  ⟨rfl, rfl⟩

/-- C2, amended: both functions raise `LtiServiceException` carrying the
raw response exactly when the response fails the `requests` success test
`status < 400` — or, for `get_access_token` only, when the body cannot be
decoded as JSON (an empty body included).  `make_service_request` does not
catch JSON decoding: on a `status < 400` response with a non-empty
undecodable body an uncaught `JSONDecodeError` (not `LtiServiceException`)
propagates; it returns normally on every `status < 400` response whose body
is empty or decodable. -/
theorem c2_lti_service_exception_iff :
    (∀ (issuer : String) (cache : TokenCache) (now : Int) (r : HttpResp)
        (scopes : List String),
        get_cached_access_token cache (scope_key issuer (pySorted scopes)) now = none →
        ((get_access_token issuer cache now r scopes =
            Except.error (SvcErr.ltiServiceException r)) ↔
          (respOk r = false ∨ r.json = none)))
  ∧ (∀ r : HttpResp,
        (make_service_request r = Except.error (SvcErr.ltiServiceException r)) ↔
          respOk r = false)
  ∧ (∀ r : HttpResp, respOk r = true →
        ((make_service_request r = Except.error SvcErr.jsonDecodeError) ↔
          (r.content ≠ "" ∧ r.json = none)))
  ∧ (∀ r : HttpResp, respOk r = true → (r.content = "" ∨ r.json ≠ none) →
        (make_service_request r).isOk = true) := by
  refine ⟨?_, ?_, ?_, ?_⟩
  · intro issuer cache now r scopes hmiss
    unfold get_access_token
    simp only [hmiss]
    unfold token_exchange
    cases hok : respOk r with
    | false => simp
    | true =>
        simp only [Bool.not_true, Bool.false_eq_true, if_false]
        cases hj : r.json with
        | none => simp
        | some j =>
            cases j with
            | obj fields =>
                cases hat : alistGet fields "access_token" with
                | none => simp [hat]
                | some token =>
                    cases hei : alistGet fields "expires_in" with
                    | none => simp [hat, hei]
                    | some ei => cases ei <;> simp [hat, hei]
            | null => simp
            | bool b => simp
            | num n => simp
            | str s => simp
            | arr elems => simp
  · intro r
    unfold make_service_request
    cases hok : respOk r with
    | false => simp
    | true =>
        simp only [Bool.not_true, Bool.false_eq_true, if_false]
        constructor
        · intro hcontra
          by_cases hc : (r.content != "" && r.json.isNone) = true
          · rw [if_pos hc] at hcontra
            exact SvcErr.noConfusion (Except.error.inj hcontra)
          · rw [if_neg hc] at hcontra
            exact Except.noConfusion hcontra
        · intro hfalse; exact absurd hfalse (by simp)
  · intro r hok
    unfold make_service_request
    rw [hok]
    simp only [Bool.not_true, Bool.false_eq_true, if_false]
    by_cases hc : (r.content != "" && r.json.isNone) = true
    · rw [if_pos hc]
      simp only [Bool.and_eq_true, bne_iff_ne, ne_eq, Option.isNone_iff_eq_none] at hc
      simp [hc]
    · rw [if_neg hc]
      simp only [Bool.and_eq_true, bne_iff_ne, ne_eq, Option.isNone_iff_eq_none,
        not_and] at hc
      constructor
      · intro hcontra; exact Except.noConfusion hcontra
      · intro ⟨h1, h2⟩; exact absurd (hc h1) (by simp [h2])
  · intro r hok hbody
    unfold make_service_request
    rw [hok]
    simp only [Bool.not_true, Bool.false_eq_true, if_false]
    have hc : (r.content != "" && r.json.isNone) = false := by
      rcases hbody with h | h
      · simp [h]
      · have hs : r.json.isNone = false := by
          cases hj : r.json with
          | none => exact absurd hj h
          | some v => rfl
        simp [hs]
    rw [if_neg (by rw [hc]; exact Bool.false_ne_true)]
    rfl

/-- C2, witness: the conjuncts of `c2_lti_service_exception_iff` applied at
concrete responses (a 500 on the token endpoint, a 500 and a 200 service
response). -/
theorem c2_lti_service_exception_iff_witness :
    ((get_access_token "iss" [] 0
        { status := 500, content := "", json := none, headers := [] } ["s"] =
        Except.error (SvcErr.ltiServiceException
          { status := 500, content := "", json := none, headers := [] })) ↔
      (respOk { status := 500, content := "", json := none, headers := [] } = false ∨
        ({ status := 500, content := "", json := none, headers := [] } : HttpResp).json = none))
    ∧ ((make_service_request { status := 500, content := "", json := none, headers := [] } =
        Except.error (SvcErr.ltiServiceException
          { status := 500, content := "", json := none, headers := [] })) ↔
      respOk { status := 500, content := "", json := none, headers := [] } = false)
    ∧ ((make_service_request
          { status := 200, content := "x", json := none, headers := [] } =
        Except.error SvcErr.jsonDecodeError) ↔
      (({ status := 200, content := "x", json := none, headers := [] } : HttpResp).content ≠ ""
        ∧ ({ status := 200, content := "x", json := none, headers := [] } : HttpResp).json = none))
    ∧ (make_service_request
        { status := 200, content := "", json := none, headers := [] }).isOk = true :=
  ⟨c2_lti_service_exception_iff.1 "iss" [] 0
      { status := 500, content := "", json := none, headers := [] } ["s"] rfl,
   c2_lti_service_exception_iff.2.1
      { status := 500, content := "", json := none, headers := [] },
   c2_lti_service_exception_iff.2.2.1
      { status := 200, content := "x", json := none, headers := [] } rfl,
   c2_lti_service_exception_iff.2.2.2
      { status := 200, content := "", json := none, headers := [] } rfl (Or.inl rfl)⟩

end ClaimC2

section ClaimC4

/-- C4, counterexample: a token *was* cached for the scopes and its stored
expiry (1000) has not passed at `now = 0` — but the cached token is the
empty string, `if cached_token:` is falsy, and the second call runs a fresh
exchange: the returned flag `true` records that a POST to the token
endpoint happened. -/
theorem c4_empty_token_counterexample :
    get_cached_access_token [(scope_key "iss" ["s"], (Json.str "", 1000))]
        (scope_key "iss" ["s"]) 0 = some (Json.str "")
    ∧ get_access_token "iss" [(scope_key "iss" ["s"], (Json.str "", 1000))] 0
        { status := 200, content := "{}",
          json := some (Json.obj
            [("access_token", Json.str "fresh"), ("expires_in", Json.num 600)]),
          headers := [] } ["s"] =
      Except.ok (Json.str "fresh",
        cacheSet [(scope_key "iss" ["s"], (Json.str "", 1000))]
          (scope_key "iss" ["s"]) (Json.str "fresh", 600), true) :=
  ⟨rfl, rfl⟩

/-- C4, amended: if a *truthy* (non-empty) token is cached for the scopes
and its stored expiry has not passed, `get_access_token` returns the cached
token, leaves the cache unchanged and performs no POST; consequently two
calls with identical scopes inside the TTL window — the first a cold-cache
exchange that stores a truthy token — perform exactly one network exchange
(the first call's flag is `true`, the second's `false`). -/
theorem c4_cached_token_single_exchange :
    (∀ (issuer : String) (cache : TokenCache) (now : Int) (r : HttpResp)
        (scopes : List String) (tok : Json) (expires : Int),
        cacheGet cache (scope_key issuer (pySorted scopes)) = some (tok, expires) →
        now < expires → jsonTruthy tok = true →
        get_access_token issuer cache now r scopes = Except.ok (tok, cache, false))
  ∧ (∀ (issuer : String) (now1 now2 : Int) (r r2 : HttpResp)
        (scopes : List String) (tok : Json) (fields : List (String × Json)) (n : Int),
        respOk r = true → r.json = some (Json.obj fields) →
        alistGet fields "access_token" = some tok →
        alistGet fields "expires_in" = some (Json.num n) →
        jsonTruthy tok = true → now2 < now1 + n →
        get_access_token issuer [] now1 r scopes =
          Except.ok (tok,
            cacheSet [] (scope_key issuer (pySorted scopes)) (tok, now1 + n), true)
        ∧ get_access_token issuer
            (cacheSet [] (scope_key issuer (pySorted scopes)) (tok, now1 + n))
            now2 r2 scopes =
          Except.ok (tok,
            cacheSet [] (scope_key issuer (pySorted scopes)) (tok, now1 + n),
            false)) := by
  constructor
  · intro issuer cache now r scopes tok expires hget hlt htruthy
    unfold get_access_token
    have hcached : get_cached_access_token cache
        (scope_key issuer (pySorted scopes)) now = some tok := by
      unfold get_cached_access_token
      rw [hget]
      dsimp only
      rw [if_pos hlt]
    simp only [hcached, htruthy, if_true]
  · intro issuer now1 now2 r r2 scopes tok fields n hok hjson hat hei htruthy hlt
    constructor
    · unfold get_access_token
      have hmiss : get_cached_access_token []
          (scope_key issuer (pySorted scopes)) now1 = none := rfl
      simp only [hmiss]
      unfold token_exchange
      rw [hok]
      simp only [Bool.not_true, Bool.false_eq_true, if_false]
      rw [hjson]
      dsimp only
      rw [hat, hei]
      rfl
    · unfold get_access_token
      have hcached : get_cached_access_token
          (cacheSet [] (scope_key issuer (pySorted scopes)) (tok, now1 + n))
          (scope_key issuer (pySorted scopes)) now2 = some tok := by
        unfold get_cached_access_token
        rw [cacheGet_cacheSet]
        dsimp only
        rw [if_pos hlt]
      simp only [hcached, htruthy, if_true]

/-- C4, witness: a concrete two-call run — the first call exchanges (flag
`true`), the second call inside the TTL window serves the cached token with
no POST (flag `false`). -/
theorem c4_cached_token_single_exchange_witness :
    get_access_token "iss" [] 0
        { status := 200, content := "{}",
          json := some (Json.obj
            [("access_token", Json.str "tok"), ("expires_in", Json.num 600)]),
          headers := [] } ["s"] =
      Except.ok (Json.str "tok",
        cacheSet [] (scope_key "iss" (pySorted ["s"])) (Json.str "tok", 0 + 600), true)
    ∧ get_access_token "iss"
        (cacheSet [] (scope_key "iss" (pySorted ["s"])) (Json.str "tok", 0 + 600))
        100
        { status := 500, content := "", json := none, headers := [] } ["s"] =
      Except.ok (Json.str "tok",
        cacheSet [] (scope_key "iss" (pySorted ["s"])) (Json.str "tok", 0 + 600),
        false) :=
  c4_cached_token_single_exchange.2 "iss" 0 100
    { status := 200, content := "{}",
      json := some (Json.obj
        [("access_token", Json.str "tok"), ("expires_in", Json.num 600)]),
      headers := [] }
    { status := 500, content := "", json := none, headers := [] }
    ["s"] (Json.str "tok")
    [("access_token", Json.str "tok"), ("expires_in", Json.num 600)] 600
    rfl rfl rfl rfl rfl (by decide)

end ClaimC4

section ClaimC8

theorem get_paginated_data_empty_url (fetch : String → Except SvcErr SvcResp) :
    ∀ fuel, get_paginated_data fetch fuel "" = ([], none) := by
  intro fuel
  cases fuel with
  | zero => rfl
  | succ f => simp [get_paginated_data]

theorem paginated_chain_ok (net : String → HttpResp) :
    ∀ (rest : List (String × SvcResp)) (u : String) (p : SvcResp) (fuel : Nat),
      ChainOk net ((u, p) :: rest) → rest.length < fuel →
      get_paginated_data (fun x => make_service_request (net x)) fuel u =
        (p :: rest.map Prod.snd, none) := by
  intro rest
  induction rest with
  | nil =>
    intro u p fuel hchain hfuel
    obtain ⟨hu, hreq, hnext, -⟩ := hchain
    cases fuel with
    | zero => exact absurd hfuel (lt_irrefl 0)
    | succ f =>
      unfold get_paginated_data
      rw [if_neg hu]
      simp only [hreq, hnext, Option.getD_none, get_paginated_data_empty_url,
        List.map_nil]
  | cons hd tl ih =>
    intro u p fuel hchain hfuel
    obtain ⟨u2, p2⟩ := hd
    obtain ⟨hu, hreq, hnext, hrest⟩ := hchain
    cases fuel with
    | zero => exact absurd hfuel (Nat.not_lt_zero _)
    | succ f =>
      have hf : tl.length < f := by
        simp only [List.length_cons] at hfuel
        omega
      have hrec := ih u2 p2 f hrest hf
      unfold get_paginated_data
      rw [if_neg hu]
      simp only [hreq, hnext, Option.getD_some, hrec, List.map_cons]

theorem paginated_chain_fail (net : String → HttpResp) (ubad : String)
    (e : SvcErr) (hbad : make_service_request (net ubad) = Except.error e) :
    ∀ (l : List (String × SvcResp)) (fuel : Nat),
      ChainPre net ubad l → l.length < fuel →
      get_paginated_data (fun x => make_service_request (net x)) fuel
          (chainHead l ubad) = (l.map Prod.snd, some e) := by
  intro l
  induction l with
  | nil =>
    intro fuel hchain hfuel
    cases fuel with
    | zero => exact absurd hfuel (lt_irrefl 0)
    | succ f =>
      unfold get_paginated_data
      rw [chainHead, if_neg hchain]
      simp only [hbad, List.map_nil]
  | cons hd tl ih =>
    intro fuel hchain hfuel
    obtain ⟨u, p⟩ := hd
    obtain ⟨hu, hreq, hnext, hrest⟩ := hchain
    cases fuel with
    | zero => exact absurd hfuel (Nat.not_lt_zero _)
    | succ f =>
      have hf : tl.length < f := by
        simp only [List.length_cons] at hfuel
        omega
      have hrec := ih f hrest hf
      unfold get_paginated_data
      rw [chainHead, if_neg hu]
      simp only [hreq, hnext, Option.getD_some, hrec, List.map_cons]

/-- C8: over every finite chain in which each page's response designates
the next page's URL through the `Link` `rel="next"` header and the last
page has none, `get_paginated_data` yields exactly the chain's page
responses, in order, and stops; and when the fetch of the URL a chain
prefix points at raises `LtiServiceException` (or any connector error),
the sequence yields exactly the pages before it and aborts with that
error — no page is skipped.  `fuel` merely bounds the loop and is
irrelevant as soon as it exceeds the chain length. -/
theorem c8_pagination :
    (∀ (net : String → HttpResp) (u : String) (p : SvcResp)
        (rest : List (String × SvcResp)) (fuel : Nat),
        ChainOk net ((u, p) :: rest) → rest.length < fuel →
        get_paginated_http net fuel u = (p :: rest.map Prod.snd, none))
  ∧ (∀ (net : String → HttpResp) (ubad : String) (e : SvcErr)
        (l : List (String × SvcResp)) (fuel : Nat),
        ChainPre net ubad l → make_service_request (net ubad) = Except.error e →
        l.length < fuel →
        get_paginated_http net fuel (chainHead l ubad) = (l.map Prod.snd, some e)) := by
  constructor
  · intro net u p rest fuel hchain hfuel
    unfold get_paginated_http
    exact paginated_chain_ok net rest u p fuel hchain hfuel
  · intro net ubad e l fuel hchain hbad hfuel
    unfold get_paginated_http
    exact paginated_chain_fail net ubad e hbad l fuel hchain hfuel

/-- C8, witness: a concrete two-page chain (the first page's `Link` header
carries `rel="next"`), fetched with fuel 5, yields exactly the two pages in
order; and a one-page prefix pointing at a URL that answers 500 yields that
page then aborts with the `LtiServiceException`. -/
theorem c8_pagination_witness :
    get_paginated_http
        (fun u =>
          if u = "https://p/page1" then
            { status := 200, content := "[1]", json := some (Json.arr [Json.num 1]),
              headers := [("Link", "<https://p/page2>; rel=\"next\"")] }
          else if u = "https://p/page2" then
            { status := 200, content := "[2]", json := some (Json.arr [Json.num 2]),
              headers := [] }
          else { status := 500, content := "", json := none, headers := [] })
        5 "https://p/page1" =
      ([{ headers := [("Link", "<https://p/page2>; rel=\"next\"")],
          body := some (Json.arr [Json.num 1]),
          next_page_url := some "https://p/page2" },
        { headers := [], body := some (Json.arr [Json.num 2]),
          next_page_url := none }], none)
    ∧ get_paginated_http
        (fun u =>
          if u = "https://q/page1" then
            { status := 200, content := "[1]", json := some (Json.arr [Json.num 1]),
              headers := [("Link", "<https://q/bad>; rel=\"next\"")] }
          else { status := 500, content := "", json := none, headers := [] })
        5 "https://q/page1" =
      ([{ headers := [("Link", "<https://q/bad>; rel=\"next\"")],
          body := some (Json.arr [Json.num 1]),
          next_page_url := some "https://q/bad" }],
        some (SvcErr.ltiServiceException
          { status := 500, content := "", json := none, headers := [] })) :=
  ⟨c8_pagination.1
      (fun u =>
        if u = "https://p/page1" then
          { status := 200, content := "[1]", json := some (Json.arr [Json.num 1]),
            headers := [("Link", "<https://p/page2>; rel=\"next\"")] }
        else if u = "https://p/page2" then
          { status := 200, content := "[2]", json := some (Json.arr [Json.num 2]),
            headers := [] }
        else { status := 500, content := "", json := none, headers := [] })
      "https://p/page1"
      { headers := [("Link", "<https://p/page2>; rel=\"next\"")],
        body := some (Json.arr [Json.num 1]),
        next_page_url := some "https://p/page2" }
      [("https://p/page2",
        { headers := [], body := some (Json.arr [Json.num 2]),
          next_page_url := none })]
      5 ⟨by decide, rfl, rfl, by decide, rfl, rfl, trivial⟩ (by decide),
   c8_pagination.2
      (fun u =>
        if u = "https://q/page1" then
          { status := 200, content := "[1]", json := some (Json.arr [Json.num 1]),
            headers := [("Link", "<https://q/bad>; rel=\"next\"")] }
        else { status := 500, content := "", json := none, headers := [] })
      "https://q/bad"
      (SvcErr.ltiServiceException
        { status := 500, content := "", json := none, headers := [] })
      [("https://q/page1",
        { headers := [("Link", "<https://q/bad>; rel=\"next\"")],
          body := some (Json.arr [Json.num 1]),
          next_page_url := some "https://q/bad" })]
      5 ⟨by decide, rfl, rfl, (by decide : ("https://q/bad" : String) ≠ "")⟩ rfl
      (by decide)⟩

end ClaimC8

section ClaimC3

/-- C3, counterexample: `get_lineitems` performs *no* scope check.  With a
grant that carries only the `score` scope (so `can_read_lineitem` is
false), `get_lineitems` raises no `LtiException` — it issues the container
GET and returns the items. -/
theorem c3_get_lineitems_no_gate_counterexample :
    can_read_lineitem
        { scope := [score_scope], lineitems := some (some "http://p/li") } = false
    ∧ runAgs (get_lineitems
        (fun req =>
          if req.url = "http://p/li" then
            Except.ok { headers := [], body := some (Json.arr [Json.obj [("id", Json.str "li1")]]),
                        next_page_url := none }
          else Except.error SvcErr.jsonDecodeError)
        { scope := [score_scope], lineitems := some (some "http://p/li") } 5) =
      (Except.ok [Json.obj [("id", Json.str "li1")]],
       [{ scopes := [score_scope], url := "http://p/li",
          accept := "application/vnd.ims.lis.v2.lineitemcontainer+json" }]) :=
  ⟨rfl, rfl⟩

/-- C3, amended: five of the six operations check their capability first
and fail fast with `LtiException` — message
`"Can't ...: Missing required scope"`, identifying the operation rather
than the scope URI — before any network request (the request trace of the
failing run is empty).  `get_lineitems` is the exception: it has no scope
check at all (see the counterexample). -/
theorem c3_scope_gates :
    (∀ (svc : SvcReq → Except SvcErr SvcResp) (d : AgsData) (fuel : Nat)
        (grade : Grade) (li : Option LineItem),
        can_put_grade d = false →
        runAgs (put_grade svc d fuel grade li) =
          (Except.error (AgsErr.lti "Can't put grade: Missing required scope"), []))
  ∧ (∀ (svc : SvcReq → Except SvcErr SvcResp) (d : AgsData)
        (url : Option String),
        can_read_lineitem d = false →
        runAgs (get_lineitem svc d url) =
          (Except.error (AgsErr.lti "Can't read lineitem: Missing required scope"), []))
  ∧ (∀ (svc : SvcReq → Except SvcErr SvcResp) (d : AgsData)
        (url : Option String),
        can_read_lineitem d = false →
        runAgs (get_lineitems_page svc d url) =
          (Except.error (AgsErr.lti "Can't read lineitem: Missing required scope"), []))
  ∧ (∀ (svc : SvcReq → Except SvcErr SvcResp) (d : AgsData) (li : LineItem),
        can_create_lineitem d = false →
        runAgs (create_lineitem svc d li) =
          (Except.error (AgsErr.lti "Can't create lineitem: Missing required scope"), []))
  ∧ (∀ (svc : SvcReq → Except SvcErr SvcResp) (d : AgsData) (fuel : Nat)
        (li : Option LineItem),
        can_read_grades d = false →
        runAgs (get_grades svc d fuel li) =
          (Except.error (AgsErr.lti "Can't read grades: Missing required scope"), [])) := by
  refine ⟨?_, ?_, ?_, ?_, ?_⟩
  · intro svc d fuel grade li h
    simp [put_grade, h, runAgs, throwA]
  · intro svc d url h
    simp [get_lineitem, h, runAgs, throwA]
  · intro svc d url h
    simp [get_lineitems_page, h, runAgs, throwA]
  · intro svc d li h
    simp [create_lineitem, h, runAgs, throwA]
  · intro svc d fuel li h
    simp [get_grades, h, runAgs, throwA]

/-- C3, witness: all five gated operations, run with an empty scope grant,
fail with their scope `LtiException` and an empty request trace. -/
theorem c3_scope_gates_witness :
    runAgs (put_grade (fun _ => Except.error SvcErr.jsonDecodeError)
        { scope := [] } 3 {} none) =
      (Except.error (AgsErr.lti "Can't put grade: Missing required scope"), [])
    ∧ runAgs (get_lineitem (fun _ => Except.error SvcErr.jsonDecodeError)
        { scope := [] } none) =
      (Except.error (AgsErr.lti "Can't read lineitem: Missing required scope"), [])
    ∧ runAgs (get_lineitems_page (fun _ => Except.error SvcErr.jsonDecodeError)
        { scope := [] } none) =
      (Except.error (AgsErr.lti "Can't read lineitem: Missing required scope"), [])
    ∧ runAgs (create_lineitem (fun _ => Except.error SvcErr.jsonDecodeError)
        { scope := [] } []) =
      (Except.error (AgsErr.lti "Can't create lineitem: Missing required scope"), [])
    ∧ runAgs (get_grades (fun _ => Except.error SvcErr.jsonDecodeError)
        { scope := [] } 3 none) =
      (Except.error (AgsErr.lti "Can't read grades: Missing required scope"), []) :=
  ⟨c3_scope_gates.1 _ { scope := [] } 3 {} none rfl,
   c3_scope_gates.2.1 _ { scope := [] } none rfl,
   c3_scope_gates.2.2.1 _ { scope := [] } none rfl,
   c3_scope_gates.2.2.2.1 _ { scope := [] } [] rfl,
   c3_scope_gates.2.2.2.2 _ { scope := [] } 3 none rfl⟩

end ClaimC3

section ClaimC9

/-! ### `str.lower()` commutes with the pieces of the `Link`-header match -/

theorem isPySpace_pyLower (c : Char) : isPySpace (pyLower c) = isPySpace c := by
  unfold pyLower
  cases hf : lowerTable.find? (fun kv => kv.1 == c) with
  | none => rfl
  | some kv =>
      have hm := List.mem_of_find?_eq_some hf
      have hc : kv.1 = c := by simpa using List.find?_some hf
      have hall : ∀ kv ∈ lowerTable,
          isPySpace kv.1 = false ∧ isPySpace kv.2 = false := by decide
      have h1 := hall kv hm
      simp [← hc, h1.1, h1.2]

/-- A character that is neither an uppercase nor a lowercase letter is
fixed by `pyLower`, and nothing else maps to it. -/
theorem pyLower_fixed_iff (t : Char)
    (hkey : lowerTable.all (fun kv => kv.1 != t) = true)
    (hval : lowerTable.all (fun kv => kv.2 != t) = true) (c : Char) :
    (pyLower c = t) ↔ (c = t) := by
  unfold pyLower
  cases hf : lowerTable.find? (fun kv => kv.1 == c) with
  | none => simp
  | some kv =>
      have hm := List.mem_of_find?_eq_some hf
      have hc : kv.1 = c := by simpa using List.find?_some hf
      have hv : kv.2 ≠ t := by
        have := List.all_eq_true.mp hval kv hm
        simpa using this
      have hk : kv.1 ≠ t := by
        have := List.all_eq_true.mp hkey kv hm
        simpa using this
      show kv.2 = t ↔ c = t
      constructor
      · intro h; exact absurd h hv
      · intro h; exact absurd (hc.trans h) hk

theorem dropWhile_pyLower (l : List Char) :
    (pyLowerStr l).dropWhile isPySpace = pyLowerStr (l.dropWhile isPySpace) := by
  induction l with
  | nil => rfl
  | cons c rest ih =>
      cases hsp : isPySpace c with
      | true =>
          simp only [pyLowerStr, List.map_cons, List.dropWhile_cons,
            isPySpace_pyLower, hsp, if_true]
          exact ih
      | false =>
          simp only [pyLowerStr, List.map_cons, List.dropWhile_cons,
            isPySpace_pyLower, hsp, Bool.false_eq_true, if_false]

theorem reverse_pyLower (l : List Char) :
    (pyLowerStr l).reverse = pyLowerStr l.reverse := by
  simp [pyLowerStr, List.map_reverse]

theorem pyStrip_pyLower (l : List Char) :
    pyStrip (pyLowerStr l) = pyLowerStr (pyStrip l) := by
  unfold pyStrip
  rw [dropWhile_pyLower, reverse_pyLower, dropWhile_pyLower, reverse_pyLower]

theorem splitAtGt_pyLower (l : List Char) :
    splitAtGt (pyLowerStr l) =
      (splitAtGt l).map (fun pr => (pyLowerStr pr.1, pyLowerStr pr.2)) := by
  induction l with
  | nil => rfl
  | cons c rest ih =>
      have hgt := pyLower_fixed_iff '>' (by decide) (by decide) c
      by_cases hc : c = '>'
      · subst hc
        simp [pyLowerStr, splitAtGt, hgt.mpr rfl]
      · have hlc : ¬pyLower c = '>' := fun h => hc (hgt.mp h)
        simp only [pyLowerStr, List.map_cons, splitAtGt, if_neg hc, if_neg hlc]
        rw [show List.map pyLower rest = pyLowerStr rest from rfl, ih]
        cases splitAtGt rest with
        | none => rfl
        | some pr => rfl

theorem matchesLit_pyLower : ∀ (pat x : List Char),
    matchesLit (fun c p => c == p) pat (pyLowerStr x) = matchesLit eqcCI pat x := by
  intro pat
  induction pat with
  | nil => intro x; rfl
  | cons p ps ih =>
      intro x
      cases x with
      | nil => rfl
      | cons c cs =>
          simp only [pyLowerStr, List.map_cons, matchesLit]
          rw [show List.map pyLower cs = pyLowerStr cs from rfl, ih]
          rfl

theorem tryMatchAt_pyLower (l : List Char) :
    tryMatchAt (fun c p => c == p) (pyLowerStr l) =
      Option.map pyLowerStr (tryMatchAt eqcCI l) := by
  unfold tryMatchAt
  rw [splitAtGt_pyLower]
  cases hsp : splitAtGt l with
  | none => rfl
  | some pr =>
      obtain ⟨grp, rest⟩ := pr
      cases rest with
      | nil => rfl
      | cons r0 rest2 =>
          have hsemi := pyLower_fixed_iff ';' (by decide) (by decide) r0
          dsimp only [Option.map, pyLowerStr, List.map]
          by_cases hr : r0 = ';'
          · subst hr
            rw [if_pos (show pyLower ';' = ';' from rfl), if_pos rfl]
            rw [show List.map pyLower rest2 = pyLowerStr rest2 from rfl,
              dropWhile_pyLower, matchesLit_pyLower]
            cases hmb : matchesLit eqcCI litRelNext (rest2.dropWhile isPySpace) with
            | true => simp [pyLowerStr]
            | false => simp
          · have hlr : ¬pyLower r0 = ';' := fun h => hr (hsemi.mp h)
            rw [if_neg hlr, if_neg hr]

theorem reSearchRelNext_pyLower : ∀ t : List Char,
    reSearchRelNext (fun c p => c == p) (pyLowerStr t) =
      Option.map pyLowerStr (reSearchRelNext eqcCI t) := by
  intro t
  induction t with
  | nil => rfl
  | cons c rest ih =>
      have hlt := pyLower_fixed_iff '<' (by decide) (by decide) c
      by_cases hc : c = '<'
      · subst hc
        simp only [pyLowerStr, List.map_cons, reSearchRelNext]
        rw [show pyLower '<' = '<' from rfl]
        simp only [if_pos rfl]
        rw [show List.map pyLower rest = pyLowerStr rest from rfl,
          tryMatchAt_pyLower]
        cases tryMatchAt eqcCI rest with
        | none => exact ih
        | some grp => rfl
      · have hlc : ¬pyLower c = '<' := fun h => hc (hlt.mp h)
        simp only [pyLowerStr, List.map_cons, reSearchRelNext, if_neg hc,
          if_neg hlc]
        exact ih

/-- C9, counterexample: on a `Link` header whose target URL contains an
uppercase letter the two code paths disagree — the lower-casing variant
returns the corrupted (lower-cased) URL. -/
theorem c9_case_counterexample :
    linkExtractNextCI "<http://p/Page2>; rel=\"next\"".toList =
      some "http://p/Page2".toList
    ∧ linkExtractNextLower "<http://p/Page2>; rel=\"next\"".toList =
      some "http://p/page2".toList
    ∧ linkExtractNextCI "<http://p/Page2>; rel=\"next\"".toList ≠
      linkExtractNextLower "<http://p/Page2>; rel=\"next\"".toList :=
  ⟨rfl, rfl, by decide⟩

/-- C9, amended: the two next-page extractions are *not* equal — the older
path lower-cases the whole header first.  They are equivalent up to
lower-casing the captured URL: on every header, the lower-casing variant
returns exactly the character-wise `lower()` of what the `re.IGNORECASE`
variant returns (so they always agree on *whether* a next page exists, and
they agree on its value exactly when the captured URL contains no uppercase
letter). -/
theorem c9_link_extract_lower_of_ci (link : List Char) :
    linkExtractNextLower link = Option.map pyLowerStr (linkExtractNextCI link)
    ∧ (linkExtractNextLower link).isSome = (linkExtractNextCI link).isSome := by
  have hmain : linkExtractNextLower link =
      Option.map pyLowerStr (linkExtractNextCI link) := by
    unfold linkExtractNextLower linkExtractNextCI
    by_cases he : link.isEmpty
    · simp [he]
    · simp only [he, Bool.false_eq_true, if_false]
      rw [pyStrip_pyLower, reSearchRelNext_pyLower]
  refine ⟨hmain, ?_⟩
  rw [hmain]
  cases linkExtractNextCI link with
  | none => rfl
  | some g => rfl

end ClaimC9

section ClaimC10Lemmas

/-! ### `dict.update` and `remove_nones` structure lemmas -/

theorem alistSet_mem : ∀ (l : List (String × Json)) (k : String) (v : Json)
    (kv : String × Json), kv ∈ alistSet l k v → kv ∈ l ∨ kv = (k, v) := by
  intro l k v kv
  induction l with
  | nil =>
      intro h
      simp [alistSet] at h
      exact Or.inr h
  | cons hd rest ih =>
      intro h
      by_cases hk : (hd.1 == k) = true
      · simp only [alistSet, hk, if_true] at h
        rcases List.mem_cons.mp h with h1 | h1
        · exact Or.inr h1
        · exact Or.inl (List.mem_cons_of_mem hd h1)
      · simp only [alistSet, hk, Bool.false_eq_true, if_false] at h
        rcases List.mem_cons.mp h with h1 | h1
        · exact Or.inl (h1 ▸ List.mem_cons_self hd rest)
        · rcases ih h1 with h2 | h2
          · exact Or.inl (List.mem_cons_of_mem hd h2)
          · exact Or.inr h2

theorem alistUpdate_mem : ∀ (ext l : List (String × Json)) (kv : String × Json),
    kv ∈ alistUpdate l ext → kv ∈ l ∨ kv ∈ ext := by
  intro ext
  induction ext with
  | nil => intro l kv h; exact Or.inl h
  | cons e ext' ih =>
      intro l kv h
      have hstep : alistUpdate l (e :: ext') = alistUpdate (alistSet l e.1 e.2) ext' := rfl
      rw [hstep] at h
      rcases ih (alistSet l e.1 e.2) kv h with h1 | h1
      · rcases alistSet_mem l e.1 e.2 kv h1 with h2 | h2
        · exact Or.inl h2
        · exact Or.inr (h2 ▸ List.mem_cons_self e ext')
      · exact Or.inr (List.mem_cons_of_mem e h1)

theorem alistSet_append (l : List (String × Json)) (k : String) (v : Json)
    (hmiss : alistHasKey l k = false) :
    ∀ acc, alistSet (l ++ acc) k v = l ++ alistSet acc k v := by
  induction l with
  | nil => intro acc; rfl
  | cons hd rest ih =>
      intro acc
      simp only [alistHasKey, List.any_cons, Bool.or_eq_false_iff] at hmiss
      simp only [List.cons_append, alistSet, hmiss.1, Bool.false_eq_true, if_false,
        List.cons.injEq, true_and]
      exact ih (by simp [alistHasKey, hmiss.2]) acc

theorem alistUpdate_append : ∀ (ext l : List (String × Json)),
    (∀ kv ∈ ext, alistHasKey l kv.1 = false) →
    ∀ acc, alistUpdate (l ++ acc) ext = l ++ alistUpdate acc ext := by
  intro ext
  induction ext with
  | nil => intro l _ acc; rfl
  | cons e ext' ih =>
      intro l hmiss acc
      have hstep : alistUpdate (l ++ acc) (e :: ext') =
          alistUpdate (alistSet (l ++ acc) e.1 e.2) ext' := rfl
      rw [hstep, alistSet_append l e.1 e.2 (hmiss e (List.mem_cons_self e ext'))]
      exact ih l (fun kv hkv => hmiss kv (List.mem_cons_of_mem e hkv)) _

theorem removeNonesFields_append : ∀ a b : List (String × Json),
    removeNonesFields (a ++ b) = removeNonesFields a ++ removeNonesFields b := by
  intro a b
  induction a with
  | nil => rfl
  | cons kv rest ih =>
      obtain ⟨k, v⟩ := kv
      simp [removeNonesFields, ih, List.append_assoc]

theorem noNullFields_append : ∀ a b : List (String × Json),
    noNullFields (a ++ b) = (noNullFields a && noNullFields b) := by
  intro a b
  induction a with
  | nil => rfl
  | cons kv rest ih =>
      obtain ⟨k, v⟩ := kv
      simp [noNullFields, ih, Bool.and_assoc]

theorem alistHasKey_append (a b : List (String × Json)) (k : String) :
    alistHasKey (a ++ b) k = (alistHasKey a k || alistHasKey b k) := by
  simp [alistHasKey, List.any_append]

theorem alistGet_append_right (a b : List (String × Json)) (k : String)
    (hmiss : alistHasKey a k = false) :
    alistGet (a ++ b) k = alistGet b k := by
  induction a with
  | nil => rfl
  | cons hd rest ih =>
      simp only [alistHasKey, List.any_cons, Bool.or_eq_false_iff] at hmiss
      simp only [List.cons_append, alistGet, List.find?, hmiss.1]
      exact ih (by simp [alistHasKey, hmiss.2])

theorem alistGet_append_left (a b : List (String × Json)) (k : String)
    (hhit : alistHasKey a k = true) :
    alistGet (a ++ b) k = alistGet a k := by
  induction a with
  | nil => simp [alistHasKey] at hhit
  | cons hd rest ih =>
      by_cases hk : (hd.1 == k) = true
      · simp [alistGet, List.find?, hk]
      · simp only [alistHasKey, List.any_cons, hk, Bool.false_or] at hhit
        simp only [List.cons_append, alistGet, List.find?, hk]
        exact ih hhit

theorem alistGet_none_of_hasKey_false (l : List (String × Json)) (k : String)
    (hmiss : alistHasKey l k = false) : alistGet l k = none := by
  cases hget : alistGet l k with
  | none => rfl
  | some v => exact absurd (alistGet_hasKey l k v hget) (by simp [hmiss])

theorem alistHasKey_removeNonesFields : ∀ (l : List (String × Json)) (k : String),
    alistHasKey (removeNonesFields l) k = true → alistHasKey l k = true := by
  intro l k
  induction l with
  | nil => intro h; exact h
  | cons kv rest ih =>
      obtain ⟨k0, v⟩ := kv
      intro h
      cases hn : v.isNull with
      | true =>
          simp only [removeNonesFields, hn, if_true, List.nil_append] at h
          simp only [alistHasKey, List.any_cons]
          exact Bool.or_eq_true_iff.mpr (Or.inr (ih h))
      | false =>
          simp only [removeNonesFields, hn, Bool.false_eq_true, if_false,
            List.singleton_append] at h
          simp only [alistHasKey, List.any_cons] at h ⊢
          rcases Bool.or_eq_true_iff.mp h with h1 | h1
          · exact Bool.or_eq_true_iff.mpr (Or.inl h1)
          · exact Bool.or_eq_true_iff.mpr (Or.inr (ih h1))

/-! ### Per-entry computations for the grade dict -/

theorem removeNonesFields_cons_num (k : String) (o : Option Int)
    (rest : List (String × Json)) :
    removeNonesFields ((k, optJsonNum o) :: rest) =
      entryNum k o ++ removeNonesFields rest := by
  cases o <;> rfl

theorem removeNonesFields_cons_str (k : String) (o : Option String)
    (rest : List (String × Json)) :
    removeNonesFields ((k, optJsonStr o) :: rest) =
      entryStr k o ++ removeNonesFields rest := by
  cases o <;> rfl

theorem removeNonesFields_gradeBase (g : Grade) :
    removeNonesFields (gradeBase g) =
      entryNum "scoreGiven" g.score_given ++
      (entryNum "scoreMaximum" g.score_maximum ++
      (entryStr "activityProgress" g.activity_progress ++
      (entryStr "gradingProgress" g.grading_progress ++
      (entryStr "timestamp" g.timestamp ++
      (entryStr "userId" g.user_id ++
      entryStr "comment" g.comment))))) := by
  unfold gradeBase
  rw [removeNonesFields_cons_num, removeNonesFields_cons_num,
    removeNonesFields_cons_str, removeNonesFields_cons_str,
    removeNonesFields_cons_str, removeNonesFields_cons_str,
    removeNonesFields_cons_str]
  simp [removeNonesFields]

theorem removeNonesFields_gradeSubmission (g : Grade) :
    removeNonesFields (gradeSubmission g) =
      entryStr "startedAt" g.started_at ++ entryStr "submittedAt" g.submitted_at := by
  unfold gradeSubmission
  rw [removeNonesFields_cons_str, removeNonesFields_cons_str]
  simp [removeNonesFields]

theorem noNullFields_entryNum (k : String) (o : Option Int) :
    noNullFields (entryNum k o) = true := by
  cases o <;> rfl

theorem noNullFields_entryStr (k : String) (o : Option String) :
    noNullFields (entryStr k o) = true := by
  cases o <;> rfl

theorem alistHasKey_entryNum (k k2 : String) (o : Option Int) :
    alistHasKey (entryNum k o) k2 = ((k == k2) && o.isSome) := by
  cases o <;> simp [entryNum, alistHasKey]

theorem alistHasKey_entryStr (k k2 : String) (o : Option String) :
    alistHasKey (entryStr k o) k2 = ((k == k2) && o.isSome) := by
  cases o <;> simp [entryStr, alistHasKey]

end ClaimC10Lemmas

section ClaimC10Master

theorem alistHasKey_exists (l : List (String × Json)) (k : String)
    (h : alistHasKey l k = true) : ∃ kv ∈ l, kv.1 = k := by
  simp only [alistHasKey, List.any_eq_true, beq_iff_eq] at h
  exact h

theorem rnf_gradeDataNoExtra (g : Grade) :
    removeNonesFields (gradeDataNoExtra g) =
      entryNum "scoreGiven" g.score_given ++
      (entryNum "scoreMaximum" g.score_maximum ++
      (entryStr "activityProgress" g.activity_progress ++
      (entryStr "gradingProgress" g.grading_progress ++
      (entryStr "timestamp" g.timestamp ++
      (entryStr "userId" g.user_id ++
      (entryStr "comment" g.comment ++ entrySub g)))))) := by
  unfold gradeDataNoExtra
  by_cases hsub : (g.started_at.isSome || g.submitted_at.isSome) = true
  · rw [if_pos hsub, removeNonesFields_append, removeNonesFields_gradeBase]
    have hone : removeNonesFields [("submission", Json.obj (gradeSubmission g))] =
        entrySub g := by
      show [("submission", removeNonesVal (Json.obj (gradeSubmission g)))] ++
          removeNonesFields [] = entrySub g
      rw [show removeNonesVal (Json.obj (gradeSubmission g)) =
            Json.obj (removeNonesFields (gradeSubmission g)) from rfl,
        removeNonesFields_gradeSubmission]
      simp [entrySub, hsub, removeNonesFields]
    rw [hone]
    simp [List.append_assoc]
  · rw [if_neg hsub, removeNonesFields_gradeBase]
    have hnone : entrySub g = [] := by simp [entrySub, hsub]
    rw [hnone]
    simp

theorem alistHasKey_entrySub (g : Grade) (k : String) :
    alistHasKey (entrySub g) k =
      ((("submission" : String) == k) &&
        (g.started_at.isSome || g.submitted_at.isSome)) := by
  by_cases hsub : (g.started_at.isSome || g.submitted_at.isSome) = true <;>
    simp [entrySub, hsub, alistHasKey]

theorem hasKey_rnf_gradeDataNoExtra (g : Grade) (k : String) :
    alistHasKey (removeNonesFields (gradeDataNoExtra g)) k =
      (((("scoreGiven" : String) == k) && g.score_given.isSome) ||
       (((("scoreMaximum" : String) == k) && g.score_maximum.isSome) ||
       (((("activityProgress" : String) == k) && g.activity_progress.isSome) ||
       (((("gradingProgress" : String) == k) && g.grading_progress.isSome) ||
       (((("timestamp" : String) == k) && g.timestamp.isSome) ||
       (((("userId" : String) == k) && g.user_id.isSome) ||
       (((("comment" : String) == k) && g.comment.isSome) ||
        ((("submission" : String) == k) &&
          (g.started_at.isSome || g.submitted_at.isSome))))))))) := by
  rw [rnf_gradeDataNoExtra]
  simp only [alistHasKey_append, alistHasKey_entryNum, alistHasKey_entryStr,
    alistHasKey_entrySub]

theorem alistGet_entryNum_skip (k : String) (o : Option Int)
    (rest : List (String × Json)) (k2 : String) (hne : (k == k2) = false) :
    alistGet (entryNum k o ++ rest) k2 = alistGet rest k2 :=
  alistGet_append_right _ _ _ (by simp [alistHasKey_entryNum, hne])

theorem alistGet_entryStr_skip (k : String) (o : Option String)
    (rest : List (String × Json)) (k2 : String) (hne : (k == k2) = false) :
    alistGet (entryStr k o ++ rest) k2 = alistGet rest k2 :=
  alistGet_append_right _ _ _ (by simp [alistHasKey_entryStr, hne])

theorem noNullFields_rnf_gradeDataNoExtra (g : Grade) :
    noNullFields (removeNonesFields (gradeDataNoExtra g)) = true := by
  rw [rnf_gradeDataNoExtra]
  have hsub : noNullFields (entrySub g) = true := by
    by_cases hs : (g.started_at.isSome || g.submitted_at.isSome) = true <;>
      simp [entrySub, hs, noNullFields, noNull, noNullFields_append,
        noNullFields_entryStr]
  simp [noNullFields_append, noNullFields_entryNum, noNullFields_entryStr, hsub]

theorem grade_value_master (g : Grade) (tl : List (String × Json))
    (hnull : noNullFields tl = true)
    (hkeys : ∀ s ∈ gradeStdKeys, alistHasKey tl s = false) :
    noNullFields (removeNonesFields (gradeDataNoExtra g) ++ tl) = true
  ∧ alistHasKey (removeNonesFields (gradeDataNoExtra g) ++ tl) "submission"
      = (g.started_at.isSome || g.submitted_at.isSome)
  ∧ alistGet (removeNonesFields (gradeDataNoExtra g) ++ tl) "submission"
      = submissionSpec g
  ∧ alistHasKey (removeNonesFields (gradeDataNoExtra g) ++ tl) "scoreGiven"
      = g.score_given.isSome
  ∧ alistHasKey (removeNonesFields (gradeDataNoExtra g) ++ tl) "scoreMaximum"
      = g.score_maximum.isSome
  ∧ alistHasKey (removeNonesFields (gradeDataNoExtra g) ++ tl) "activityProgress"
      = g.activity_progress.isSome
  ∧ alistHasKey (removeNonesFields (gradeDataNoExtra g) ++ tl) "gradingProgress"
      = g.grading_progress.isSome
  ∧ alistHasKey (removeNonesFields (gradeDataNoExtra g) ++ tl) "timestamp"
      = g.timestamp.isSome
  ∧ alistHasKey (removeNonesFields (gradeDataNoExtra g) ++ tl) "userId"
      = g.user_id.isSome
  ∧ alistHasKey (removeNonesFields (gradeDataNoExtra g) ++ tl) "comment"
      = g.comment.isSome := by
  refine ⟨?_, ?_, ?_, ?_, ?_, ?_, ?_, ?_, ?_, ?_⟩
  · rw [noNullFields_append, noNullFields_rnf_gradeDataNoExtra, hnull]
    rfl
  · rw [alistHasKey_append, hkeys "submission" (by simp [gradeStdKeys]),
      Bool.or_false, hasKey_rnf_gradeDataNoExtra]
    simp
  · by_cases hsub : (g.started_at.isSome || g.submitted_at.isSome) = true
    · have hleft : alistHasKey (removeNonesFields (gradeDataNoExtra g))
          "submission" = true := by
        rw [hasKey_rnf_gradeDataNoExtra]
        simp [hsub]
      rw [alistGet_append_left _ _ _ hleft, rnf_gradeDataNoExtra]
      rw [alistGet_entryNum_skip _ _ _ _ (by decide),
        alistGet_entryNum_skip _ _ _ _ (by decide),
        alistGet_entryStr_skip _ _ _ _ (by decide),
        alistGet_entryStr_skip _ _ _ _ (by decide),
        alistGet_entryStr_skip _ _ _ _ (by decide),
        alistGet_entryStr_skip _ _ _ _ (by decide),
        alistGet_entryStr_skip _ _ _ _ (by decide)]
      simp [entrySub, hsub, alistGet, List.find?, submissionSpec]
    · have hleft : alistHasKey (removeNonesFields (gradeDataNoExtra g))
          "submission" = false := by
        rw [hasKey_rnf_gradeDataNoExtra]
        simp only [Bool.or_eq_false_iff, Bool.and_eq_false_iff]
        refine ⟨by left; decide, by left; decide, by left; decide, by left; decide,
          by left; decide, by left; decide, by left; decide, ?_⟩
        right
        exact Bool.not_eq_true _ ▸ (by simpa using hsub)
      rw [alistGet_append_right _ _ _ hleft,
        alistGet_none_of_hasKey_false _ _ (hkeys "submission" (by simp [gradeStdKeys]))]
      simp [submissionSpec, hsub]
  · rw [alistHasKey_append, hkeys "scoreGiven" (by simp [gradeStdKeys]),
      Bool.or_false, hasKey_rnf_gradeDataNoExtra]
    simp
  · rw [alistHasKey_append, hkeys "scoreMaximum" (by simp [gradeStdKeys]),
      Bool.or_false, hasKey_rnf_gradeDataNoExtra]
    simp
  · rw [alistHasKey_append, hkeys "activityProgress" (by simp [gradeStdKeys]),
      Bool.or_false, hasKey_rnf_gradeDataNoExtra]
    simp
  · rw [alistHasKey_append, hkeys "gradingProgress" (by simp [gradeStdKeys]),
      Bool.or_false, hasKey_rnf_gradeDataNoExtra]
    simp
  · rw [alistHasKey_append, hkeys "timestamp" (by simp [gradeStdKeys]),
      Bool.or_false, hasKey_rnf_gradeDataNoExtra]
    simp
  · rw [alistHasKey_append, hkeys "userId" (by simp [gradeStdKeys]),
      Bool.or_false, hasKey_rnf_gradeDataNoExtra]
    simp
  · rw [alistHasKey_append, hkeys "comment" (by simp [gradeStdKeys]),
      Bool.or_false, hasKey_rnf_gradeDataNoExtra]
    simp

end ClaimC10Master

section ClaimC10

theorem hasKey_gradeDataNoExtra_raw (g : Grade) (k : String)
    (hne : ∀ s ∈ gradeStdKeys, s ≠ k) :
    alistHasKey (gradeDataNoExtra g) k = false := by
  have h1 : ¬("scoreGiven" : String) = k := hne _ (by simp [gradeStdKeys])
  have h2 : ¬("scoreMaximum" : String) = k := hne _ (by simp [gradeStdKeys])
  have h3 : ¬("activityProgress" : String) = k := hne _ (by simp [gradeStdKeys])
  have h4 : ¬("gradingProgress" : String) = k := hne _ (by simp [gradeStdKeys])
  have h5 : ¬("timestamp" : String) = k := hne _ (by simp [gradeStdKeys])
  have h6 : ¬("userId" : String) = k := hne _ (by simp [gradeStdKeys])
  have h7 : ¬("comment" : String) = k := hne _ (by simp [gradeStdKeys])
  have h8 : ¬("submission" : String) = k := hne _ (by simp [gradeStdKeys])
  unfold gradeDataNoExtra
  by_cases hsub : (g.started_at.isSome || g.submitted_at.isSome) = true
  · rw [if_pos hsub, alistHasKey_append]
    simp [gradeBase, alistHasKey, h1, h2, h3, h4, h5, h6, h7, h8]
  · rw [if_neg hsub]
    simp [gradeBase, alistHasKey, h1, h2, h3, h4, h5, h6, h7]

theorem noNullFields_removeNonesFields_of_clean :
    ∀ m : List (String × Json),
      (∀ kv ∈ m, (kv.2.isNull || noNull (removeNonesVal kv.2)) = true) →
      noNullFields (removeNonesFields m) = true := by
  intro m
  induction m with
  | nil => intro _; rfl
  | cons kv rest ih =>
      intro hm
      obtain ⟨k, v⟩ := kv
      have hv := hm (k, v) (List.mem_cons_self _ _)
      have hrest := fun kv2 hkv2 => hm kv2 (List.mem_cons_of_mem _ hkv2)
      cases hn : v.isNull with
      | true =>
          simp only [removeNonesFields, hn, if_true, List.nil_append]
          exact ih hrest
      | false =>
          simp only [hn, Bool.false_or] at hv
          simp only [removeNonesFields, hn, Bool.false_eq_true, if_false,
            List.singleton_append, noNullFields]
          simp [hv, ih hrest]

/-- C10, counterexample: a Grade whose extra claims hide a `null` inside a
list value.  `remove_nones` recurses into dict values only, so the `null`
survives into the serialized output at nesting depth 2 — the output is not
null-free. -/
theorem c10_null_in_list_counterexample :
    noNull (grade_get_value { extra_claims := some [("custom", Json.arr [Json.null])] }) = false
    ∧ alistGet
        (removeNonesFields (gradeData { extra_claims := some [("custom", Json.arr [Json.null])] }))
        "custom" = some (Json.arr [Json.null]) :=
  ⟨rfl, rfl⟩

/-- C10, amended: for every Grade whose extra claims (if any) use keys
disjoint from the standard score keys and carry no `null` that
`remove_nones` cannot remove (i.e. no `null` nested inside a list value),
the serialized value contains no `null` at any depth, every unset standard
field is omitted (each standard key is present exactly when its member is
set), and the `submission` sub-object is present exactly when `started_at`
or `submitted_at` is set, containing only the set members of those two. -/
theorem c10_grade_value_serialization (g : Grade) (h : gradeExtraOk g = true) :
    noNull (grade_get_value g) = true
  ∧ alistHasKey (removeNonesFields (gradeData g)) "submission"
      = (g.started_at.isSome || g.submitted_at.isSome)
  ∧ alistGet (removeNonesFields (gradeData g)) "submission" = submissionSpec g
  ∧ alistHasKey (removeNonesFields (gradeData g)) "scoreGiven"
      = g.score_given.isSome
  ∧ alistHasKey (removeNonesFields (gradeData g)) "scoreMaximum"
      = g.score_maximum.isSome
  ∧ alistHasKey (removeNonesFields (gradeData g)) "activityProgress"
      = g.activity_progress.isSome
  ∧ alistHasKey (removeNonesFields (gradeData g)) "gradingProgress"
      = g.grading_progress.isSome
  ∧ alistHasKey (removeNonesFields (gradeData g)) "timestamp"
      = g.timestamp.isSome
  ∧ alistHasKey (removeNonesFields (gradeData g)) "userId"
      = g.user_id.isSome
  ∧ alistHasKey (removeNonesFields (gradeData g)) "comment"
      = g.comment.isSome := by
  cases hext : g.extra_claims with
  | none =>
      have hdata : gradeData g = gradeDataNoExtra g := by
        unfold gradeData
        rw [hext]
      have hmaster := grade_value_master g [] rfl (fun s _ => rfl)
      simp only [List.append_nil] at hmaster
      simp only [grade_get_value, noNull]
      rw [hdata]
      exact hmaster
  | some ext =>
      unfold gradeExtraOk at h
      rw [hext] at h
      dsimp only at h
      have hP := List.all_eq_true.mp h
      have hpair : ∀ kv ∈ ext,
          (gradeStdKeys.all (fun s => s != kv.1)) = true ∧
          (kv.2.isNull || noNull (removeNonesVal kv.2)) = true := by
        intro kv hkv
        have hp := hP kv hkv
        rwa [Bool.and_eq_true] at hp
      have hstd : ∀ kv ∈ ext, ∀ s ∈ gradeStdKeys, s ≠ kv.1 := by
        intro kv hkv s hs
        have h2 := List.all_eq_true.mp ((hpair kv hkv).1) s hs
        simpa using h2
      have hnul : ∀ kv ∈ ext, (kv.2.isNull || noNull (removeNonesVal kv.2)) = true :=
        fun kv hkv => (hpair kv hkv).2
      have hdata : gradeData g = gradeDataNoExtra g ++ alistUpdate [] ext := by
        unfold gradeData
        rw [hext]
        have happ := alistUpdate_append ext (gradeDataNoExtra g)
          (fun kv hkv => hasKey_gradeDataNoExtra_raw g kv.1 (hstd kv hkv)) []
        rw [List.append_nil] at happ
        exact happ
      have hmemtl : ∀ kv ∈ alistUpdate [] ext, kv ∈ ext := by
        intro kv hkv
        rcases alistUpdate_mem ext [] kv hkv with h0 | h0
        · exact absurd h0 (List.not_mem_nil kv)
        · exact h0
      have htl_null : noNullFields (removeNonesFields (alistUpdate [] ext)) = true :=
        noNullFields_removeNonesFields_of_clean _
          (fun kv hkv => hnul kv (hmemtl kv hkv))
      have htl_keys : ∀ s ∈ gradeStdKeys,
          alistHasKey (removeNonesFields (alistUpdate [] ext)) s = false := by
        intro s hs
        cases hk : alistHasKey (removeNonesFields (alistUpdate [] ext)) s with
        | false => rfl
        | true =>
            exfalso
            have hraw := alistHasKey_removeNonesFields _ s hk
            obtain ⟨kv, hkv, hkveq⟩ := alistHasKey_exists _ s hraw
            exact (hstd kv (hmemtl kv hkv) s hs) hkveq.symm
      have hmaster := grade_value_master g (removeNonesFields (alistUpdate [] ext))
        htl_null htl_keys
      simp only [grade_get_value, noNull]
      rw [hdata, removeNonesFields_append]
      exact hmaster

/-- C10, witness: a concrete graded submission with a clean
platform-specific extra claim — the serialized value is null-free and the
`submission` object carries exactly the set member. -/
theorem c10_grade_value_serialization_witness :
    noNull (grade_get_value
      { score_given := some 5, score_maximum := some 100,
        started_at := some "2024-01-01T00:00:00+0000",
        extra_claims := some
          [("https://canvas.example/submission", Json.obj
            [("submission_type", Json.str "external_tool")])] }) = true
    ∧ alistGet (removeNonesFields (gradeData
        { score_given := some 5, score_maximum := some 100,
          started_at := some "2024-01-01T00:00:00+0000",
          extra_claims := some
            [("https://canvas.example/submission", Json.obj
              [("submission_type", Json.str "external_tool")])] })) "submission"
      = submissionSpec
        { score_given := some 5, score_maximum := some 100,
          started_at := some "2024-01-01T00:00:00+0000",
          extra_claims := some
            [("https://canvas.example/submission", Json.obj
              [("submission_type", Json.str "external_tool")])] } :=
  ⟨(c10_grade_value_serialization _ (by decide)).1,
   (c10_grade_value_serialization
      { score_given := some 5, score_maximum := some 100,
        started_at := some "2024-01-01T00:00:00+0000",
        extra_claims := some
          [("https://canvas.example/submission", Json.obj
            [("submission_type", Json.str "external_tool")])] } (by decide)).2.2.1⟩

end ClaimC10
